import Mathlib

/-!
Verification development for the rust-jni safety layer.

The Rust source is shallowly embedded: strings are lists of characters,
raw pointers are natural numbers (`0` is the null pointer), the raw JNI
function-pointer table is an oracle structure, and a Rust panic is
modelled as a distinguished outcome. Machine integers (`i8`/`i16`/`i32`/
`i64`) are carried as `Int` — the layer only passes them through, it never
does arithmetic on them — and `f32`/`f64` payloads are carried opaquely as
bit patterns, for the same reason.
-/

namespace RustJni

/-- Strings are modelled as lists of characters (the descriptors the layer
handles are ASCII, where Rust byte indices and character indices agree). -/
abbrev Str := List Char

/-- ASCII whitespace recognizer backing the model of Rust `str::trim`. -/
def isWS (c : Char) : Bool :=
  c = ' ' || c = '\t' || c = '\n' || c = '\r'

/-- Left part of Rust `str::trim`. -/
def trimLeft (s : Str) : Str := s.dropWhile isWS

/-- Right part of Rust `str::trim`. -/
def trimRight (s : Str) : Str := (s.reverse.dropWhile isWS).reverse

/-- Model of Rust `str::trim` (both ends). -/
def strTrim (s : Str) : Str := trimRight (trimLeft s)

/-- Model of Rust `str::starts_with`. -/
def strStartsWith (s p : Str) : Bool := p.isPrefixOf s

/-- Model of Rust `str::ends_with`. -/
def strEndsWith (s p : Str) : Bool := p.isSuffixOf s

/-- Model of Rust `str::find(pat)`: index of the first occurrence of `pat`. -/
def strFind : Str → Str → Option Nat
  | [], pat => if pat.isPrefixOf ([] : Str) then some 0 else none
  | x :: t, pat =>
    if pat.isPrefixOf (x :: t) then some 0
    else (strFind t pat).map (· + 1)

/-- Model of Rust `str::split(c)` for a one-character pattern: the pieces
between occurrences of `c` (always at least one piece, possibly empty). -/
def splitOn (c : Char) : Str → List Str
  | [] => [[]]
  | x :: xs =>
    if x = c then [] :: splitOn c xs
    else
      match splitOn c xs with
      | [] => [[x]]
      | p :: ps => (x :: p) :: ps

/-- Model of Rust `str::replace(".", "/")` (single-character pattern). -/
def replaceDots (s : Str) : Str :=
  s.map (fun c => if c = '.' then '/' else c)

theorem dropWhile_all_false {p : Char → Bool} {l : Str}
    (h : ∀ c ∈ l, p c = false) : l.dropWhile p = l := by
  induction l with
  | nil => rfl
  | cons x xs ih =>
    simp only [List.dropWhile]
    rw [h x (by simp)]

theorem strTrim_of_all_nonws {s : Str} (h : ∀ c ∈ s, isWS c = false) :
    strTrim s = s := by
  unfold strTrim trimLeft trimRight
  rw [dropWhile_all_false h, dropWhile_all_false, List.reverse_reverse]
  intro c hc
  exact h c (by simpa using hc)

theorem trimLeft_cons {c : Char} {t : Str} (h : isWS c = false) :
    trimLeft (c :: t) = c :: t := by
  simp [trimLeft, List.dropWhile, h]

theorem trimRight_snoc {l : Str} {c : Char} (h : isWS c = false) :
    trimRight (l ++ [c]) = l ++ [c] := by
  simp [trimRight, List.dropWhile, h]

theorem strTrim_length_le (s : Str) : (strTrim s).length ≤ s.length := by
  unfold strTrim trimRight trimLeft
  calc ((s.dropWhile isWS).reverse.dropWhile isWS).reverse.length
      = ((s.dropWhile isWS).reverse.dropWhile isWS).length := by
        rw [List.length_reverse]
    _ ≤ (s.dropWhile isWS).reverse.length :=
        ((s.dropWhile isWS).reverse.dropWhile_sublist isWS).length_le
    _ = (s.dropWhile isWS).length := by rw [List.length_reverse]
    _ ≤ s.length := (s.dropWhile_sublist isWS).length_le

theorem strFind_some_le {s pat : Str} {i : Nat} (h : strFind s pat = some i) :
    i + pat.length ≤ s.length := by
  induction s generalizing i with
  | nil =>
    simp only [strFind] at h
    by_cases hp : pat.isPrefixOf ([] : Str)
    · rw [if_pos hp] at h
      cases h
      have : pat = [] := by
        cases pat with
        | nil => rfl
        | cons a as => simp [List.isPrefixOf] at hp
      simp [this]
    · rw [if_neg hp] at h
      simp at h
  | cons x xs ih =>
    simp only [strFind] at h
    by_cases hp : pat.isPrefixOf (x :: xs)
    · rw [if_pos hp] at h
      cases h
      have := List.IsPrefix.length_le (List.isPrefixOf_iff_prefix.mp hp)
      omega
    · rw [if_neg hp] at h
      match hfind : strFind xs pat with
      | none => rw [hfind] at h; simp at h
      | some j =>
        rw [hfind] at h
        have hj : i = j + 1 := by
          cases h; rfl
        subst hj
        have := ih hfind
        simp only [List.length_cons]
        omega

theorem strFind_eq_zero {s pat : Str} (h : strFind s pat = some 0) :
    pat.isPrefixOf s = true := by
  cases s with
  | nil =>
    simp only [strFind] at h
    by_cases hp : pat.isPrefixOf ([] : Str)
    · exact hp
    · rw [if_neg hp] at h; simp at h
  | cons x xs =>
    simp only [strFind] at h
    by_cases hp : pat.isPrefixOf (x :: xs)
    · exact hp
    · rw [if_neg hp] at h
      match hfind : strFind xs pat with
      | none => rw [hfind] at h; simp at h
      | some j => rw [hfind] at h; simp at h

theorem splitOn_ne_nil (c : Char) (l : Str) : splitOn c l ≠ [] := by
  cases l with
  | nil => simp [splitOn]
  | cons x xs =>
    unfold splitOn
    by_cases h : x = c
    · simp [h]
    · simp only [h, if_false]
      match splitOn c xs with
      | [] => simp
      | p :: ps => simp

theorem splitOn_cons_self (c : Char) (xs : Str) :
    splitOn c (c :: xs) = [] :: splitOn c xs := by
  simp [splitOn]

theorem splitOn_cons_ne {x c : Char} (xs : Str) (h : ¬x = c) {p : Str}
    {ps : List Str} (hs : splitOn c xs = p :: ps) :
    splitOn c (x :: xs) = (x :: p) :: ps := by
  simp [splitOn, h, hs]

theorem splitOn_sum_length (c : Char) (l : Str) :
    ((splitOn c l).map List.length).sum + (splitOn c l).length = l.length + 1 := by
  induction l with
  | nil => simp [splitOn]
  | cons x xs ih =>
    by_cases h : x = c
    · subst h
      rw [splitOn_cons_self]
      simp only [List.map_cons, List.length_nil, List.sum_cons, List.length_cons]
      omega
    · match hs : splitOn c xs with
      | [] => exact absurd hs (splitOn_ne_nil c xs)
      | p :: ps =>
        rw [splitOn_cons_ne xs h hs]
        rw [hs] at ih
        simp only [List.map_cons, List.sum_cons, List.length_cons] at ih ⊢
        omega

theorem length_le_of_mem_splitOn {c : Char} {l : Str} {p : Str}
    (h : p ∈ splitOn c l) : p.length ≤ l.length := by
  have hsum := splitOn_sum_length c l
  have hmem : p.length ∈ (splitOn c l).map List.length :=
    List.mem_map.mpr ⟨p, h, rfl⟩
  have hle : p.length ≤ ((splitOn c l).map List.length).sum :=
    List.single_le_sum (fun _ _ => Nat.zero_le _) _ hmem
  have hpos : 1 ≤ (splitOn c l).length :=
    List.length_pos.mpr (splitOn_ne_nil c l)
  omega

/-! ## Signature mangler (`src/mangling.rs`) -/

/-- The `TypeSignature` AST of `mangling.rs`. -/
inductive TypeSignature
  | Primitive (name : Str)
  | Class (name : Str)
  | Array (inner : TypeSignature)
  | Method (params : List TypeSignature) (ret : TypeSignature)

/-- `is_primitive` of `mangling.rs`. The compared literals are the strings
"boolean", "byte", "char", "short", "int", "long", "float", "double",
"void", written as character lists. -/
def is_primitive (name : Str) : Bool :=
  name == ['b', 'o', 'o', 'l', 'e', 'a', 'n'] ||
  name == ['b', 'y', 't', 'e'] ||
  name == ['c', 'h', 'a', 'r'] ||
  name == ['s', 'h', 'o', 'r', 't'] ||
  name == ['i', 'n', 't'] ||
  name == ['l', 'o', 'n', 'g'] ||
  name == ['f', 'l', 'o', 'a', 't'] ||
  name == ['d', 'o', 'u', 'b', 'l', 'e'] ||
  name == ['v', 'o', 'i', 'd']

/-- `primitive_symbol` of `mangling.rs`; unknown names give the empty
string, as in the source's catch-all arm. -/
def primitive_symbol (name : Str) : Str :=
  if name == ['b', 'o', 'o', 'l', 'e', 'a', 'n'] then ['Z']
  else if name == ['b', 'y', 't', 'e'] then ['B']
  else if name == ['c', 'h', 'a', 'r'] then ['C']
  else if name == ['s', 'h', 'o', 'r', 't'] then ['S']
  else if name == ['i', 'n', 't'] then ['I']
  else if name == ['l', 'o', 'n', 'g'] then ['J']
  else if name == ['f', 'l', 'o', 'a', 't'] then ['F']
  else if name == ['d', 'o', 'u', 'b', 'l', 'e'] then ['D']
  else if name == ['v', 'o', 'i', 'd'] then ['V']
  else []

mutual

/-- `TypeSignature::mangled` of `mangling.rs`. -/
def mangled : TypeSignature → Str
  | .Primitive name => primitive_symbol name
  | .Class name => 'L' :: replaceDots name ++ [';']
  | .Array inner => '[' :: mangled inner
  | .Method params ret => '(' :: mangledList params ++ ')' :: mangled ret

/-- The `params.iter().map(|val| val.mangled()).collect::<String>()` part of
the `Method` arm of `mangled`. -/
def mangledList : List TypeSignature → Str
  | [] => []
  | p :: ps => mangled p ++ mangledList ps

end

/-- The `JType` enum of `types/jtype.rs`. -/
inductive JType
  | Object | Boolean | Byte | Char | Short | Int | Long | Float | Double | Void
deriving DecidableEq

/-- The `JNonVoidType` enum of `types/jtype.rs`. -/
inductive JNonVoidType
  | Object | Boolean | Byte | Char | Short | Int | Long | Float | Double
deriving DecidableEq

/-- The `JNativeType` enum of `types/jtype.rs`. -/
inductive JNativeType
  | Boolean | Byte | Char | Short | Int | Long | Float | Double
deriving DecidableEq

/-- `JType::as_nonvoid` of `types/jtype.rs`. -/
def JType.as_nonvoid : JType → Option JNonVoidType
  | .Object => some .Object
  | .Boolean => some .Boolean
  | .Byte => some .Byte
  | .Char => some .Char
  | .Short => some .Short
  | .Int => some .Int
  | .Long => some .Long
  | .Float => some .Float
  | .Double => some .Double
  | .Void => none

/-- `TypeSignature::java_type` of `mangling.rs`; `none` models the
`unreachable!()` / `unimplemented!()` panics of the source. -/
def TypeSignature.java_type : TypeSignature → Option JType
  | .Primitive name =>
    if name == ['b', 'o', 'o', 'l', 'e', 'a', 'n'] then some .Boolean
    else if name == ['b', 'y', 't', 'e'] then some .Byte
    else if name == ['c', 'h', 'a', 'r'] then some .Char
    else if name == ['s', 'h', 'o', 'r', 't'] then some .Short
    else if name == ['i', 'n', 't'] then some .Int
    else if name == ['l', 'o', 'n', 'g'] then some .Long
    else if name == ['f', 'l', 'o', 'a', 't'] then some .Float
    else if name == ['d', 'o', 'u', 'b', 'l', 'e'] then some .Double
    else if name == ['v', 'o', 'i', 'd'] then some .Void
    else none
  | .Class _ => some .Object
  | .Array _ => some .Object
  | .Method _ _ => none

mutual

/-- `mangle_class` of `mangling.rs`: parse a readable descriptor into a
`TypeSignature`. `none` models a Rust panic (the source's
`panic!("Invalid class to mangle")` and panics propagating out of the
recursive calls). -/
def mangle_class (s : Str) : Option TypeSignature :=
  let name := strTrim s
  if is_primitive name then
    some (.Primitive name)
  else if h2 : strStartsWith name ['('] then
    match hf : strFind name ['-', '>'] with
    | some pos =>
      let args := strTrim (name.take pos)
      let ret := strTrim (name.drop pos)
      match handle_args args, mangle_class (ret.drop 2) with
      | some argSigs, some retSig => some (.Method argSigs retSig)
      | _, _ => none
    | none => none
  else if h3 : strEndsWith name ['[', ']'] then
    (mangle_class (name.dropLast.dropLast)).map .Array
  else
    some (.Class name)
termination_by s.length
decreasing_by
  · -- the argument string handed to `handle_args` is shorter than the input
    have h1 : (strTrim s).length ≤ s.length := strTrim_length_le s
    have hname : List.length name = List.length (strTrim s) := rfl
    have h4 := strFind_some_le hf
    have h5 : (strTrim ((strTrim s).take pos)).length ≤ pos := by
      have ha := strTrim_length_le ((strTrim s).take pos)
      have hb : ((strTrim s).take pos).length ≤ pos := by
        simp [List.length_take]
      omega
    have h6 : List.length (strTrim (List.take pos name)) =
        List.length (strTrim (List.take pos (strTrim s))) := rfl
    simp only [List.length_cons, List.length_nil] at h4
    omega
  · -- the return-type string handed to the recursive call is shorter
    have h1 : (strTrim s).length ≤ s.length := strTrim_length_le s
    have h4 := strFind_some_le hf
    have hpos : 1 ≤ pos := by
      rcases Nat.eq_zero_or_pos pos with hz | hp
      · subst hz
        have hpre := strFind_eq_zero hf
        have := List.isPrefixOf_iff_prefix.mp hpre
        have hh := List.isPrefixOf_iff_prefix.mp h2
        rcases this with ⟨t1, ht1⟩
        rcases hh with ⟨t2, ht2⟩
        rw [← ht2] at ht1
        simp at ht1
      · exact hp
    have h5 : ((strTrim ((strTrim s).drop pos)).drop 2).length ≤ (strTrim s).length - pos := by
      have ha := strTrim_length_le ((strTrim s).drop pos)
      have hb : ((strTrim s).drop pos).length = (strTrim s).length - pos := by
        simp [List.length_drop]
      have hc := List.length_drop 2 (strTrim ((strTrim s).drop pos))
      omega
    have hname : List.length name = List.length (strTrim s) := rfl
    have h6 : List.length (List.drop 2 (strTrim (List.drop pos name))) =
        List.length (List.drop 2 (strTrim (List.drop pos (strTrim s)))) := rfl
    simp only [List.length_cons, List.length_nil] at h4
    omega
  · -- the element-type string of an array descriptor is shorter
    have h1 : (strTrim s).length ≤ s.length := strTrim_length_le s
    have h4 : 2 ≤ (strTrim s).length := by
      have := List.IsSuffix.length_le (List.isSuffixOf_iff_suffix.mp h3)
      simpa using this
    have h5 : (strTrim s).dropLast.dropLast.length = (strTrim s).length - 2 := by
      simp only [List.length_dropLast]
      omega
    have hname : List.length name.dropLast.dropLast =
        List.length (strTrim s).dropLast.dropLast := rfl
    omega

/-- `handle_args` of `mangling.rs`: split a parenthesised argument list on
commas and parse each piece. -/
def handle_args (args : Str) : Option (List TypeSignature) :=
  if h : args.length > 2 then
    mangle_list (splitOn ',' ((args.drop 1).dropLast))
  else
    some []
termination_by args.length
decreasing_by
  have := splitOn_sum_length ',' ((args.drop 1).dropLast)
  have hlen : ((args.drop 1).dropLast).length = args.length - 2 := by
    simp only [List.length_dropLast, List.length_drop]
    omega
  omega

/-- The `.split(",").map(&mangle_class).collect()` part of `handle_args`:
parse each piece in order, propagating panics. -/
def mangle_list : List Str → Option (List TypeSignature)
  | [] => some []
  | p :: ps =>
    match mangle_class p, mangle_list ps with
    | some sig, some sigs => some (sig :: sigs)
    | _, _ => none
termination_by ls => (ls.map List.length).sum + ls.length
decreasing_by
  · simp only [List.map_cons, List.sum_cons, List.length_cons]
    omega
  · simp only [List.map_cons, List.sum_cons, List.length_cons]
    omega

end

/-! ### Unfolding lemmas for the mangler -/

theorem mangled_Primitive (name : Str) :
    mangled (.Primitive name) = primitive_symbol name := by
  conv_lhs => rw [mangled.eq_def]

theorem mangled_Class (name : Str) :
    mangled (.Class name) = 'L' :: replaceDots name ++ [';'] := by
  conv_lhs => rw [mangled.eq_def]

theorem mangled_Array (inner : TypeSignature) :
    mangled (.Array inner) = '[' :: mangled inner := by
  conv_lhs => rw [mangled.eq_def]

theorem mangled_Method (params : List TypeSignature) (ret : TypeSignature) :
    mangled (.Method params ret) = '(' :: mangledList params ++ ')' :: mangled ret := by
  conv_lhs => rw [mangled.eq_def]

theorem mangledList_nil : mangledList [] = [] := by
  conv_lhs => rw [mangledList.eq_def]

theorem mangledList_cons (p : TypeSignature) (ps : List TypeSignature) :
    mangledList (p :: ps) = mangled p ++ mangledList ps := by
  conv_lhs => rw [mangledList.eq_def]

theorem is_primitive_of_paren {t : Str} (h : strStartsWith t ['('] = true) :
    is_primitive t = false := by
  rcases List.isPrefixOf_iff_prefix.mp h with ⟨r, hr⟩
  subst hr
  simp [is_primitive]

theorem mangle_class_prim {s : Str} (h : is_primitive (strTrim s) = true) :
    mangle_class s = some (.Primitive (strTrim s)) := by
  conv_lhs => rw [mangle_class.eq_def]
  simp only [h, if_true]

theorem mangle_class_class {s : Str} (h1 : is_primitive (strTrim s) = false)
    (h2 : strStartsWith (strTrim s) ['('] = false)
    (h3 : strEndsWith (strTrim s) ['[', ']'] = false) :
    mangle_class s = some (.Class (strTrim s)) := by
  conv_lhs => rw [mangle_class.eq_def]
  simp [h1, h2, h3]

theorem mangle_class_array {s : Str} (h1 : is_primitive (strTrim s) = false)
    (h2 : strStartsWith (strTrim s) ['('] = false)
    (h3 : strEndsWith (strTrim s) ['[', ']'] = true) :
    mangle_class s = (mangle_class ((strTrim s).dropLast.dropLast)).map .Array := by
  conv_lhs => rw [mangle_class.eq_def]
  simp [h1, h2, h3]

theorem mangle_class_paren_none {s : Str}
    (h2 : strStartsWith (strTrim s) ['('] = true)
    (hf : strFind (strTrim s) ['-', '>'] = none) :
    mangle_class s = none := by
  have h1 := is_primitive_of_paren h2
  conv_lhs => rw [mangle_class.eq_def]
  simp only [h1, Bool.false_eq_true, if_false, h2, dif_pos]
  split
  · rename_i pos heq
    rw [hf] at heq
    cases heq
  · rfl

theorem mangle_class_method {s : Str} {pos : Nat}
    (h2 : strStartsWith (strTrim s) ['('] = true)
    (hf : strFind (strTrim s) ['-', '>'] = some pos) :
    mangle_class s =
      match handle_args (strTrim ((strTrim s).take pos)),
            mangle_class ((strTrim ((strTrim s).drop pos)).drop 2) with
      | some argSigs, some retSig => some (.Method argSigs retSig)
      | _, _ => none := by
  have h1 := is_primitive_of_paren h2
  conv_lhs => rw [mangle_class.eq_def]
  simp only [h1, Bool.false_eq_true, if_false, h2, dif_pos]
  split
  · rename_i pos2 heq
    rw [hf] at heq
    cases heq
    rfl
  · rename_i heq
    rw [hf] at heq
    cases heq

theorem handle_args_small {args : Str} (h : ¬args.length > 2) :
    handle_args args = some [] := by
  conv_lhs => rw [handle_args.eq_def]
  simp only [dif_neg h]

theorem handle_args_big {args : Str} (h : args.length > 2) :
    handle_args args = mangle_list (splitOn ',' ((args.drop 1).dropLast)) := by
  conv_lhs => rw [handle_args.eq_def]
  simp only [dif_pos h]

theorem mangle_list_nil : mangle_list [] = some [] := by
  conv_lhs => rw [mangle_list.eq_def]

theorem mangle_list_cons (p : Str) (ps : List Str) :
    mangle_list (p :: ps) =
      match mangle_class p, mangle_list ps with
      | some sig, some sigs => some (sig :: sigs)
      | _, _ => none := by
  conv_lhs => rw [mangle_list.eq_def]

theorem dropWhile_idem (p : Char → Bool) (l : Str) :
    (l.dropWhile p).dropWhile p = l.dropWhile p := by
  induction l with
  | nil => rfl
  | cons x xs ih =>
    by_cases h : p x
    · simp [List.dropWhile, h, ih]
    · simp [List.dropWhile, h]

theorem trimLeft_shape (s : Str) :
    trimLeft s = [] ∨ ∃ c t, trimLeft s = c :: t ∧ isWS c = false := by
  induction s with
  | nil => left; rfl
  | cons x xs ih =>
    by_cases h : isWS x
    · simpa [trimLeft, List.dropWhile, h] using ih
    · right
      exact ⟨x, xs, by simp [trimLeft, List.dropWhile, h], by simpa using h⟩

theorem trimRight_isPrefix (l : Str) : trimRight l <+: l := by
  have hsuf : l.reverse.dropWhile isWS <:+ l.reverse := List.dropWhile_suffix isWS
  have : (trimRight l).reverse = l.reverse.dropWhile isWS := by
    simp [trimRight]
  rw [← this] at hsuf
  exact (List.reverse_suffix).mp hsuf

theorem trimLeft_trimRight_trimLeft (s : Str) :
    trimLeft (trimRight (trimLeft s)) = trimRight (trimLeft s) := by
  rcases trimLeft_shape s with h | ⟨c, t, h, hc⟩
  · rw [h]; rfl
  · rw [h]
    rcases hpre : trimRight (c :: t) with _ | ⟨c2, t2⟩
    · rfl
    · have := trimRight_isPrefix (c :: t)
      rw [hpre] at this
      rcases this with ⟨r, hr⟩
      have hc2 : c2 = c := by
        have := hr
        simp at this
        exact this.1
      subst hc2
      exact trimLeft_cons hc

theorem strTrim_idem (s : Str) : strTrim (strTrim s) = strTrim s := by
  show trimRight (trimLeft (trimRight (trimLeft s))) = trimRight (trimLeft s)
  rw [trimLeft_trimRight_trimLeft]
  unfold trimRight
  rw [List.reverse_reverse, dropWhile_idem]

/-- `mangle_class` trims its input first, so trimming beforehand is
invisible to it. -/
theorem mangle_class_trim (s : Str) : mangle_class (strTrim s) = mangle_class s := by
  unfold mangle_class
  rw [strTrim_idem]

/-! ### Locating the arrow of a method descriptor -/

theorem strFind_cons_none {x : Char} {t pat : Str}
    (h : strFind (x :: t) pat = none) :
    pat.isPrefixOf (x :: t) = false ∧ strFind t pat = none := by
  simp only [strFind] at h
  by_cases hp : pat.isPrefixOf (x :: t)
  · rw [if_pos hp] at h; cases h
  · rw [if_neg hp] at h
    refine ⟨Bool.eq_false_iff.mpr hp, ?_⟩
    cases hf : strFind t pat
    · rfl
    · rw [hf] at h; simp at h

theorem take_append_aux (u v : Str) (n : Nat) (h : 1 ≤ u.length) :
    (u ++ v.take (n - 1)).take n = (u ++ v).take n := by
  rw [List.take_append_eq_append_take, List.take_append_eq_append_take,
    List.take_take]
  congr 2
  omega

theorem isPrefixOf_congr_take {pat l m : Str}
    (h : l.take pat.length = m.take pat.length) :
    pat.isPrefixOf l = pat.isPrefixOf m := by
  have h1 : pat.isPrefixOf l = true ↔ pat.isPrefixOf m = true := by
    rw [List.isPrefixOf_iff_prefix, List.isPrefixOf_iff_prefix]
    constructor
    · intro hp
      have hv := List.prefix_iff_eq_take.mp hp
      rw [List.prefix_iff_eq_take, ← h]
      exact hv
    · intro hp
      have hv := List.prefix_iff_eq_take.mp hp
      rw [List.prefix_iff_eq_take, h]
      exact hv
  cases hb : pat.isPrefixOf m
  · cases hbl : pat.isPrefixOf l
    · rfl
    · exact absurd (h1.mp hbl) (by simp [hb])
  · exact h1.mpr hb

/-- Shifting a find over an occurrence-free prefix: if `pat` does not occur
anywhere in `xs` extended by the first `pat.length - 1` characters of `ys`,
the first occurrence in `xs ++ ys` is the first occurrence in `ys`,
shifted. -/
theorem strFind_append (pat xs ys : Str)
    (h : strFind (xs ++ ys.take (pat.length - 1)) pat = none) :
    strFind (xs ++ ys) pat = (strFind ys pat).map (· + xs.length) := by
  induction xs with
  | nil =>
    simp only [List.nil_append, List.length_nil]
    cases strFind ys pat <;> simp
  | cons x t ih =>
    rw [List.cons_append] at h
    obtain ⟨hnp, hrest⟩ := strFind_cons_none h
    have hlen : 1 ≤ (x :: t).length := by simp
    have htake : ((x :: t) ++ ys.take (pat.length - 1)).take pat.length
        = ((x :: t) ++ ys).take pat.length := take_append_aux _ _ _ hlen
    have hnp2 : pat.isPrefixOf ((x :: t) ++ ys) = false := by
      rw [← isPrefixOf_congr_take htake, List.cons_append]
      simpa [List.cons_append] using hnp
    have ihv := ih hrest
    rw [List.cons_append]
    simp only [strFind]
    rw [show pat.isPrefixOf (x :: (t ++ ys)) = false from by
      simpa [List.cons_append] using hnp2]
    simp only [Bool.false_eq_true, if_false]
    rw [ihv]
    cases strFind ys pat with
    | none => simp
    | some j => simp [List.length_cons]; omega

theorem strFind_arrow_none {l : Str} (h : '-' ∉ l) :
    strFind l ['-', '>'] = none := by
  induction l with
  | nil => decide
  | cons x t ih =>
    have hx : ¬x = '-' := fun e => h (e ▸ List.mem_cons_self x t)
    have ht : '-' ∉ t := fun hm => h (List.mem_cons_of_mem _ hm)
    simp only [strFind]
    rw [show (['-', '>'] : Str).isPrefixOf (x :: t) = false from by
      simp [List.isPrefixOf]
      intro e
      exact absurd e.symm hx]
    simp [ih ht]

theorem strFind_arrow_snoc_none {l : Str} (h : '-' ∉ l) :
    strFind (l ++ ['-']) ['-', '>'] = none := by
  induction l with
  | nil => decide
  | cons x t ih =>
    have hx : ¬x = '-' := fun e => h (e ▸ List.mem_cons_self x t)
    have ht : '-' ∉ t := fun hm => h (List.mem_cons_of_mem _ hm)
    rw [List.cons_append]
    simp only [strFind]
    rw [show (['-', '>'] : Str).isPrefixOf (x :: (t ++ ['-'])) = false from by
      simp [List.isPrefixOf]
      intro e
      exact absurd e.symm hx]
    simp [ih ht]

theorem strFind_arrow_here (r : Str) :
    strFind ('-' :: '>' :: r) ['-', '>'] = some 0 := by
  simp [strFind, List.isPrefixOf]

/-! ### Splitting an argument list -/

theorem splitOn_of_not_mem {c : Char} {l : Str} (h : c ∉ l) :
    splitOn c l = [l] := by
  induction l with
  | nil => rfl
  | cons x xs ih =>
    have hx : ¬x = c := fun e => h (e ▸ List.mem_cons_self x xs)
    have hxs : c ∉ xs := fun hm => h (List.mem_cons_of_mem _ hm)
    rw [splitOn_cons_ne xs hx (ih hxs)]

theorem splitOn_append_cons {c : Char} {xs : Str} (ys : Str) (h : c ∉ xs) :
    splitOn c (xs ++ c :: ys) = xs :: splitOn c ys := by
  induction xs with
  | nil => simpa using splitOn_cons_self c ys
  | cons x t ih =>
    have hx : ¬x = c := fun e => h (e ▸ List.mem_cons_self x t)
    have ht : c ∉ t := fun hm => h (List.mem_cons_of_mem _ hm)
    rw [List.cons_append, splitOn_cons_ne _ hx (ih ht)]

/-! ### Trimming around a method descriptor -/

theorem trimRight_snoc_ws {l : Str} {c : Char} (h : isWS c = true) :
    trimRight (l ++ [c]) = trimRight l := by
  simp [trimRight, List.dropWhile, h]

theorem strTrim_cons_snoc {c d : Char} {m : Str} (hc : isWS c = false)
    (hd : isWS d = false) : strTrim (c :: (m ++ [d])) = c :: (m ++ [d]) := by
  unfold strTrim
  rw [trimLeft_cons hc]
  rw [show c :: (m ++ [d]) = (c :: m) ++ [d] from by simp]
  rw [trimRight_snoc hd]

theorem trimLeft_space_cons {l : Str} : trimLeft (' ' :: l) = trimLeft l := by
  simp [trimLeft, List.dropWhile, isWS]

theorem strTrim_space_cons {l : Str} (h : ∀ c ∈ l, isWS c = false) :
    strTrim (' ' :: l) = l := by
  unfold strTrim
  rw [trimLeft_space_cons]
  have := strTrim_of_all_nonws h
  unfold strTrim at this
  exact this

theorem mangle_class_space_cons {l : Str} (h : ∀ c ∈ l, isWS c = false) :
    mangle_class (' ' :: l) = mangle_class l := by
  rw [← mangle_class_trim (' ' :: l), strTrim_space_cons h]

/-- A plain (non-method) descriptor component: nonempty, and free of
whitespace, commas and dashes — which covers every primitive name, dotted
class name and `[]`-suffixed array descriptor. -/
def plainDesc (s : Str) : Prop :=
  s ≠ [] ∧ ∀ c ∈ s, isWS c = false ∧ c ≠ ',' ∧ c ≠ '-'

instance (s : Str) : Decidable (plainDesc s) := by
  unfold plainDesc
  infer_instance

/-- Parsing the method shape `"(A, B) -> C"` parses the three components
recursively. -/
theorem parse_method_shape {A B C : Str} {sa sb sc : TypeSignature}
    (hA : plainDesc A) (hB : plainDesc B) (hC : plainDesc C)
    (ha : mangle_class A = some sa) (hb : mangle_class B = some sb)
    (hc : mangle_class C = some sc) :
    mangle_class ('(' :: (A ++ [',', ' '] ++ (B ++ [')', ' ', '-', '>', ' '] ++ C)))
      = some (.Method [sa, sb] sc) := by
  have hAall : ∀ c ∈ A, isWS c = false := fun c h => (hA.2 c h).1
  have hBall : ∀ c ∈ B, isWS c = false := fun c h => (hB.2 c h).1
  have hAdash : '-' ∉ A := fun hm => (hA.2 _ hm).2.2 rfl
  have hBdash : '-' ∉ B := fun hm => (hB.2 _ hm).2.2 rfl
  have hAcomma : ',' ∉ A := fun hm => (hA.2 _ hm).2.1 rfl
  have hBcomma : ',' ∉ B := fun hm => (hB.2 _ hm).2.1 rfl
  obtain ⟨C', d, hCd⟩ : ∃ C2 d, C = C2 ++ [d] := by
    rcases List.eq_nil_or_concat C with h | ⟨C2, d, h⟩
    · exact absurd h hC.1
    · exact ⟨C2, d, by simpa [List.concat_eq_append] using h⟩
  subst hCd
  have hd : isWS d = false := (hC.2 d (by simp)).1
  have hCall : ∀ c ∈ C' ++ [d], isWS c = false := fun c h => (hC.2 c h).1
  -- decompose the descriptor around the arrow
  have hXY : ('(' :: (A ++ [',', ' '] ++ (B ++ [')', ' ', '-', '>', ' '] ++ (C' ++ [d]))))
      = ('(' :: (A ++ [',', ' '] ++ (B ++ [')', ' ']))) ++ ('-' :: '>' :: ' ' :: (C' ++ [d])) := by
    simp
  have hnotin : '-' ∉ ('(' :: (A ++ [',', ' '] ++ (B ++ [')', ' ']))) := by
    intro hm
    simp only [List.mem_cons, List.mem_append] at hm
    rcases hm with h | ((h | h) | (h | h))
    · exact absurd h (by decide)
    · exact hAdash h
    · simp at h
    · exact hBdash h
    · simp at h
  have hXlen : ('(' :: (A ++ [',', ' '] ++ (B ++ [')', ' ']))).length
      = A.length + B.length + 5 := by
    simp only [List.length_cons, List.length_append, List.length_nil]
    omega
  have hfind0 : strFind (('(' :: (A ++ [',', ' '] ++ (B ++ [')', ' '])))
        ++ ('-' :: '>' :: ' ' :: (C' ++ [d]))) ['-', '>']
      = some (A.length + B.length + 5) := by
    have h1 : strFind (('(' :: (A ++ [',', ' '] ++ (B ++ [')', ' ']))) ++ ['-'])
        ['-', '>'] = none := strFind_arrow_snoc_none hnotin
    have h2 := strFind_append ['-', '>'] ('(' :: (A ++ [',', ' '] ++ (B ++ [')', ' '])))
      ('-' :: '>' :: ' ' :: (C' ++ [d])) h1
    rw [h2, strFind_arrow_here]
    simp [hXlen]
    omega
  -- the whole descriptor survives trimming
  have htrimS : strTrim ('(' :: (A ++ [',', ' '] ++ (B ++ [')', ' ', '-', '>', ' '] ++ (C' ++ [d]))))
      = ('(' :: (A ++ [',', ' '] ++ (B ++ [')', ' ', '-', '>', ' '] ++ (C' ++ [d])))) := by
    have e0 : ('(' :: (A ++ [',', ' '] ++ (B ++ [')', ' ', '-', '>', ' '] ++ (C' ++ [d]))))
        = '(' :: ((A ++ [',', ' '] ++ (B ++ [')', ' ', '-', '>', ' '] ++ C')) ++ [d]) := by
      simp
    rw [e0, strTrim_cons_snoc (by decide) hd]
  have hSW : strStartsWith
      (strTrim ('(' :: (A ++ [',', ' '] ++ (B ++ [')', ' ', '-', '>', ' '] ++ (C' ++ [d])))))
      ['('] = true := by
    rw [htrimS]
    simp [strStartsWith, List.isPrefixOf]
  have hfindS : strFind
      (strTrim ('(' :: (A ++ [',', ' '] ++ (B ++ [')', ' ', '-', '>', ' '] ++ (C' ++ [d])))))
      ['-', '>'] = some (A.length + B.length + 5) := by
    rw [htrimS, hXY]
    exact hfind0
  rw [mangle_class_method hSW hfindS, htrimS, hXY, ← hXlen, List.take_left, List.drop_left]
  -- arguments part
  have htrimX : strTrim ('(' :: (A ++ [',', ' '] ++ (B ++ [')', ' '])))
      = '(' :: (A ++ [',', ' '] ++ (B ++ [')'])) := by
    unfold strTrim
    rw [trimLeft_cons (by decide)]
    have e1 : ('(' :: (A ++ [',', ' '] ++ (B ++ [')', ' '])))
        = ('(' :: (A ++ [',', ' '] ++ (B ++ [')']))) ++ [' '] := by simp
    rw [e1, trimRight_snoc_ws (by decide)]
    have e2 : ('(' :: (A ++ [',', ' '] ++ (B ++ [')'])))
        = ('(' :: (A ++ [',', ' '] ++ B)) ++ [')'] := by simp
    rw [e2, trimRight_snoc (by decide)]
  have hXlen2 : ('(' :: (A ++ [',', ' '] ++ (B ++ [')']))).length > 2 := by
    simp only [List.length_cons, List.length_append, List.length_nil]
    omega
  have hsplit : splitOn ',' ((('(' :: (A ++ [',', ' '] ++ (B ++ [')']))).drop 1).dropLast)
      = [A, ' ' :: B] := by
    have e3 : (('(' :: (A ++ [',', ' '] ++ (B ++ [')']))).drop 1).dropLast
        = A ++ ',' :: (' ' :: B) := by
      have e4 : ('(' :: (A ++ [',', ' '] ++ (B ++ [')']))).drop 1
          = (A ++ [',', ' '] ++ B) ++ [')'] := by
        simp
      rw [e4, List.dropLast_concat]
      simp
    rw [e3, splitOn_append_cons _ hAcomma, splitOn_of_not_mem]
    intro hm
    simp only [List.mem_cons] at hm
    rcases hm with h | h
    · exact absurd h (by decide)
    · exact hBcomma h
  have hargs : handle_args (strTrim ('(' :: (A ++ [',', ' '] ++ (B ++ [')', ' ']))))
      = some [sa, sb] := by
    rw [htrimX, handle_args_big hXlen2, hsplit, mangle_list_cons, ha,
      mangle_list_cons, mangle_class_space_cons hBall, hb, mangle_list_nil]
  -- return-type part
  have htrimY : strTrim ('-' :: '>' :: ' ' :: (C' ++ [d]))
      = '-' :: '>' :: ' ' :: (C' ++ [d]) := by
    have e5 : ('-' :: '>' :: ' ' :: (C' ++ [d]))
        = '-' :: (('>' :: ' ' :: C') ++ [d]) := by simp
    rw [e5, strTrim_cons_snoc (by decide) hd]
  have hret : mangle_class ((strTrim ('-' :: '>' :: ' ' :: (C' ++ [d]))).drop 2)
      = some sc := by
    rw [htrimY]
    show mangle_class (' ' :: (C' ++ [d])) = some sc
    rw [mangle_class_space_cons hCall]
    exact hc
  rw [hargs, hret]

/-! ## Errors (`src/error.rs`) -/

/-- The `Error` enum of `error.rs`. The boxed source error of the
`Induced` arm is opaque to this layer and is not carried. -/
inductive Error
  | Induced
  | General (msg : String) (code : Int)
  | NullPointer (ctx : String)
deriving DecidableEq

/-- `Error::new` of `error.rs` (its `match code` has a single catch-all
arm). -/
def Error.new (msg : String) (code : Int) : Error := .General msg code

/-- `Error::new_null` of `error.rs`. -/
def Error.new_null (ctx : String) : Error := .NullPointer ctx

/-- `JNI_ERR` of `ffi/constants.rs`. -/
def JNI_ERR : Int := -1

/-! ## Smart object handles (`src/types/object.rs`) -/

/-- The handle kinds declared by the `smart_obj!` invocations of
`types/object.rs`. -/
inductive Kind
  | object | throwable | class_ | string_ | weak | array
  | objectArray | booleanArray | byteArray | charArray | shortArray
  | intArray | longArray | floatArray | doubleArray
deriving DecidableEq

/-- `stringify!($x)`: the Rust type name of a handle kind, used in the
null-pointer constructor error. -/
def kindName : Kind → String
  | .object => "JObject"
  | .throwable => "JThrowable"
  | .class_ => "JClass"
  | .string_ => "JString"
  | .weak => "JWeak"
  | .array => "JArray"
  | .objectArray => "JObjectArray"
  | .booleanArray => "JBooleanArray"
  | .byteArray => "JByteArray"
  | .charArray => "JCharArray"
  | .shortArray => "JShortArray"
  | .intArray => "JIntArray"
  | .longArray => "JLongArray"
  | .floatArray => "JFloatArray"
  | .doubleArray => "JDoubleArray"

/-- `get_java_name()` of the `smart_obj!` macro: `stringify!($y)` where
`$y` is the declared string literal — note that stringifying a string
literal keeps its quote characters, so each name below carries them,
exactly as the generated Rust code does. -/
def get_java_name : Kind → Str
  | .object => "\"[Ljava/lang/Object;\"".toList
  | .throwable => "\"[Ljava/lang/Throwable;\"".toList
  | .class_ => "\"[Ljava/lang/Class;\"".toList
  | .string_ => "\"[Ljava/lang/String;\"".toList
  | .weak => "\"[Ljava/lang/ref/WeakReference;\"".toList
  | .array => "\"\"".toList
  | .objectArray => "\"[Ljava/lang/Object;\"".toList
  | .booleanArray => "\"[Z\"".toList
  | .byteArray => "\"[B\"".toList
  | .charArray => "\"[C\"".toList
  | .shortArray => "\"[S\"".toList
  | .intArray => "\"[I\"".toList
  | .longArray => "\"[J\"".toList
  | .floatArray => "\"[F\"".toList
  | .doubleArray => "\"[D\"".toList

/-- The string literal declared for a kind in its `smart_obj!` invocation
(the quote characters of `get_java_name` are a `stringify!` artifact; this
is the declared binary name itself, used to state what the spec calls
"the target handle kind's declared binary name"). -/
def declared_binary_name : Kind → Str
  | .object => "[Ljava/lang/Object;".toList
  | .throwable => "[Ljava/lang/Throwable;".toList
  | .class_ => "[Ljava/lang/Class;".toList
  | .string_ => "[Ljava/lang/String;".toList
  | .weak => "[Ljava/lang/ref/WeakReference;".toList
  | .array => "".toList
  | .objectArray => "[Ljava/lang/Object;".toList
  | .booleanArray => "[Z".toList
  | .byteArray => "[B".toList
  | .charArray => "[C".toList
  | .shortArray => "[S".toList
  | .intArray => "[I".toList
  | .longArray => "[J".toList
  | .floatArray => "[F".toList
  | .doubleArray => "[D".toList

/-- The struct generated by `smart_obj!`: a handle of kind `k` wrapping
one raw pointer (pointers are `Nat`, `0` is null). -/
structure SmartObj (k : Kind) where
  backing_ptr : Nat
deriving DecidableEq

abbrev JObject := SmartObj .object
abbrev JThrowable := SmartObj .throwable
abbrev JClass := SmartObj .class_
abbrev JString := SmartObj .string_
abbrev JWeak := SmartObj .weak
abbrev JArray := SmartObj .array

/-- The `new` constructor generated by `smart_obj!`: fails on a null
pointer. -/
def SmartObj.new (k : Kind) (ptr : Nat) : Except Error (SmartObj k) :=
  if ptr = 0 then .error (Error.new_null (kindName k ++ " Constructor"))
  else .ok ⟨ptr⟩

/-- `JMethodID` of `types/object.rs`: the raw token plus cached return
kind and arity. -/
structure JMethodID where
  real_id : Nat
  ret_type : JType
  num_args : Nat
deriving DecidableEq

/-- `JMethodID::new` of `types/object.rs`. -/
def JMethodID.new (id : Nat) (ret : JType) (num_args : Nat) :
    Except Error JMethodID :=
  if id = 0 then .error (Error.new_null "JMethodID Constructor")
  else .ok ⟨id, ret, num_args⟩

/-- `JMethodID::ret_ty`. -/
def JMethodID.ret_ty (m : JMethodID) : JType := m.ret_type

/-- `JFieldID` of `types/object.rs`. -/
structure JFieldID where
  real_id : Nat
  ty : JNonVoidType
deriving DecidableEq

/-- `JFieldID::new` of `types/object.rs`. -/
def JFieldID.new (id : Nat) (ty : JNonVoidType) : Except Error JFieldID :=
  if id = 0 then .error (Error.new_null "JFieldID Constructor")
  else .ok ⟨id, ty⟩

/-! ## Tagged values (`src/types/value.rs`) -/

/-- The primitive type aliases of `ffi/types.rs` (`JBoolean = bool`,
`JByte = i8`, `JChar = u16`, `JShort = i16`, `JInt = i32`, `JLong = i64`,
`JFloat = f32`, `JDouble = f64`); integers are carried as `Int`, the
`u16`/float payloads as `Nat`. -/
abbrev JBoolean := Bool
abbrev JByte := Int
abbrev JChar := Nat
abbrev JShort := Int
abbrev JInt := Int
abbrev JLong := Int
abbrev JFloat := Nat
abbrev JDouble := Nat

/-- The `JValue` enum of `types/value.rs`. `Char` carries the Unicode
scalar value of the Rust `char`; `Float`/`Double` carry their bit
patterns opaquely. -/
inductive JValue
  | Bool (b : Bool)
  | Byte (v : Int)
  | Char (v : Nat)
  | Short (v : Int)
  | Int (v : Int)
  | Long (v : Int)
  | Float (bits : Nat)
  | Double (bits : Nat)
  | Object (o : Option JObject)
deriving DecidableEq

def JValue.into_obj : JValue → Except Error (Option JObject)
  | .Object obj => .ok obj
  | _ => .error (Error.new "JValue isn't an object" JNI_ERR)

def JValue.into_bool : JValue → Except Error JBoolean
  | .Bool b => .ok b
  | _ => .error (Error.new "JValue isn't a boolean" JNI_ERR)

def JValue.into_byte : JValue → Except Error JByte
  | .Byte b => .ok b
  | _ => .error (Error.new "JValue isn't a byte" JNI_ERR)

def JValue.into_char : JValue → Except Error JChar
  | .Char c => .ok c
  | _ => .error (Error.new "JValue isn't a char" JNI_ERR)

def JValue.into_short : JValue → Except Error JShort
  | .Short s => .ok s
  | _ => .error (Error.new "JValue isn't a short" JNI_ERR)

def JValue.into_int : JValue → Except Error JInt
  | .Int i => .ok i
  | _ => .error (Error.new "JValue isn't an integer" JNI_ERR)

def JValue.into_long : JValue → Except Error JLong
  | .Long l => .ok l
  | _ => .error (Error.new "JValue isn't a long" JNI_ERR)

def JValue.into_float : JValue → Except Error JFloat
  | .Float f => .ok f
  | _ => .error (Error.new "JValue isn't a float" JNI_ERR)

def JValue.into_double : JValue → Except Error JDouble
  | .Double d => .ok d
  | _ => .error (Error.new "JValue isn't a double" JNI_ERR)

/-- The raw ABI's untagged `JValue` union of `ffi`; each write sets one
member, so it is modelled as a tagged sum of the written member. -/
inductive FFIJValue
  | z (v : Bool)
  | b (v : Int)
  | c (v : Nat)
  | s (v : Int)
  | i (v : Int)
  | j (v : Int)
  | f (v : Nat)
  | d (v : Nat)
  | l (v : Nat)
deriving DecidableEq

/-- `JValue::as_ffi` of `types/value.rs`; the `Object` arm yields the
wrapped pointer or the null sentinel. -/
def JValue.as_ffi : JValue → FFIJValue
  | .Bool b => .z b
  | .Byte b => .b b
  | .Char c => .c c
  | .Short s => .s s
  | .Int i => .i i
  | .Long l => .j l
  | .Float f => .f f
  | .Double d => .d d
  | .Object obj => .l (match obj with | some o => o.backing_ptr | none => 0)

/-- `JValue::make_ffi_vec` of `types/value.rs`. -/
def JValue.make_ffi_vec (slice : List JValue) : List FFIJValue :=
  slice.map JValue.as_ffi

/-! ## Native arrays (`src/types/array.rs`) -/

/-- The `JNativeArray` enum: a typed primitive-array handle per kind. -/
inductive JNativeArray
  | Boolean (arr : SmartObj .booleanArray)
  | Byte (arr : SmartObj .byteArray)
  | Char (arr : SmartObj .charArray)
  | Short (arr : SmartObj .shortArray)
  | Int (arr : SmartObj .intArray)
  | Long (arr : SmartObj .longArray)
  | Float (arr : SmartObj .floatArray)
  | Double (arr : SmartObj .doubleArray)
deriving DecidableEq

/-- `JNativeArray::jtype` of `types/array.rs`. -/
def JNativeArray.jtype : JNativeArray → JNativeType
  | .Boolean _ => .Boolean
  | .Byte _ => .Byte
  | .Char _ => .Char
  | .Short _ => .Short
  | .Int _ => .Int
  | .Long _ => .Long
  | .Float _ => .Float
  | .Double _ => .Double

/-- The `JNativeSlice` enum: a whole-array view; the viewed elements are
carried as lists (`JChar` is `u16`, carried as `Nat`). -/
inductive JNativeSlice
  | Boolean (s : List Bool)
  | Byte (s : List Int)
  | Char (s : List Nat)
  | Short (s : List Int)
  | Int (s : List Int)
  | Long (s : List Int)
  | Float (s : List Nat)
  | Double (s : List Nat)
deriving DecidableEq

/-- `JNativeSlice::jtype` of `types/array.rs`. -/
def JNativeSlice.jtype : JNativeSlice → JNativeType
  | .Boolean _ => .Boolean
  | .Byte _ => .Byte
  | .Char _ => .Char
  | .Short _ => .Short
  | .Int _ => .Int
  | .Long _ => .Long
  | .Float _ => .Float
  | .Double _ => .Double

/-- The `JNativeVec` enum: an owned region buffer (its `Char` arm holds
Rust `char`s, carried as Unicode scalar values). -/
inductive JNativeVec
  | Boolean (v : List Bool)
  | Byte (v : List Int)
  | Char (v : List Nat)
  | Short (v : List Int)
  | Int (v : List Int)
  | Long (v : List Int)
  | Float (v : List Nat)
  | Double (v : List Nat)
deriving DecidableEq

/-- `JNativeVec::jtype` of `types/array.rs`. -/
def JNativeVec.jtype : JNativeVec → JNativeType
  | .Boolean _ => .Boolean
  | .Byte _ => .Byte
  | .Char _ => .Char
  | .Short _ => .Short
  | .Int _ => .Int
  | .Long _ => .Long
  | .Float _ => .Float
  | .Double _ => .Double

/-- `ReleaseMode` of `types/array.rs`. -/
inductive ReleaseMode
  | CopyFree | Commit | Abort
deriving DecidableEq

/-- `impl Into<JInt> for ReleaseMode` (0, `JNI_COMMIT` = 1,
`JNI_ABORT` = 2). -/
def ReleaseMode.into : ReleaseMode → Int
  | .CopyFree => 0
  | .Commit => 1
  | .Abort => 2

/-- `JNINativeMethod` of `types/native_method.rs` (the two `CString`s and
the function pointer). -/
structure JNINativeMethod where
  name : String
  signature : String
  fn_ptr : Nat
deriving DecidableEq

/-! ## The raw ABI oracle

The fixed function-pointer table of the managed runtime, one field per raw
entry point the modelled Façade operations reach. Theorems quantify over
this structure, so each field stands for arbitrary runtime behaviour.
`exception_check` is the deferred exception-pending flag as observed by
the Façade's post-call check. The raw `void`-returning entry points
(`call_void_method` and the field setters) produce no value and appear
only through the Façade's control flow. -/
structure RawEnv where
  exception_check : Bool
  find_class : Str → Nat
  get_object_class : Nat → Nat
  is_assignable_from : Nat → Nat → Bool
  call_object_method : Nat → Nat → List FFIJValue → Nat
  call_boolean_method : Nat → Nat → List FFIJValue → Bool
  call_byte_method : Nat → Nat → List FFIJValue → Int
  call_char_method : Nat → Nat → List FFIJValue → Nat
  call_short_method : Nat → Nat → List FFIJValue → Int
  call_int_method : Nat → Nat → List FFIJValue → Int
  call_long_method : Nat → Nat → List FFIJValue → Int
  call_float_method : Nat → Nat → List FFIJValue → Nat
  call_double_method : Nat → Nat → List FFIJValue → Nat
  call_nonvirtual_object_method : Nat → Nat → Nat → List FFIJValue → Nat
  call_nonvirtual_boolean_method : Nat → Nat → Nat → List FFIJValue → Bool
  call_nonvirtual_byte_method : Nat → Nat → Nat → List FFIJValue → Int
  call_nonvirtual_char_method : Nat → Nat → Nat → List FFIJValue → Nat
  call_nonvirtual_short_method : Nat → Nat → Nat → List FFIJValue → Int
  call_nonvirtual_int_method : Nat → Nat → Nat → List FFIJValue → Int
  call_nonvirtual_long_method : Nat → Nat → Nat → List FFIJValue → Int
  call_nonvirtual_float_method : Nat → Nat → Nat → List FFIJValue → Nat
  call_nonvirtual_double_method : Nat → Nat → Nat → List FFIJValue → Nat
  call_static_object_method : Nat → Nat → List FFIJValue → Nat
  call_static_boolean_method : Nat → Nat → List FFIJValue → Bool
  call_static_byte_method : Nat → Nat → List FFIJValue → Int
  call_static_char_method : Nat → Nat → List FFIJValue → Nat
  call_static_short_method : Nat → Nat → List FFIJValue → Int
  call_static_int_method : Nat → Nat → List FFIJValue → Int
  call_static_long_method : Nat → Nat → List FFIJValue → Int
  call_static_float_method : Nat → Nat → List FFIJValue → Nat
  call_static_double_method : Nat → Nat → List FFIJValue → Nat
  get_object_field : Nat → Nat → Nat
  get_boolean_field : Nat → Nat → Bool
  get_byte_field : Nat → Nat → Int
  get_char_field : Nat → Nat → Nat
  get_short_field : Nat → Nat → Int
  get_int_field : Nat → Nat → Int
  get_long_field : Nat → Nat → Int
  get_float_field : Nat → Nat → Nat
  get_double_field : Nat → Nat → Nat
  get_static_object_field : Nat → Nat → Nat
  get_static_boolean_field : Nat → Nat → Bool
  get_static_byte_field : Nat → Nat → Int
  get_static_char_field : Nat → Nat → Nat
  get_static_short_field : Nat → Nat → Int
  get_static_int_field : Nat → Nat → Int
  get_static_long_field : Nat → Nat → Int
  get_static_float_field : Nat → Nat → Nat
  get_static_double_field : Nat → Nat → Nat
  throw : Nat → Int
  throw_new : Nat → String → Int
  ensure_local_capacity : Int → Int
  push_local_frame : Int → Int
  register_natives : Nat → List JNINativeMethod → Int
  unregister_natives : Nat → Int
  monitor_enter : Nat → Int
  monitor_exit : Nat → Int

/-- Outcome of a Façade operation: a value, a structured error, or a Rust
panic. -/
inductive Outcome (α : Type)
  | ok (val : α)
  | err (e : Error)
  | panicked
deriving DecidableEq

/-- A Façade result together with whether any raw dispatch entry point was
invoked (used to state "fails before reaching the ABI"). -/
structure OpResult (α : Type) where
  res : Outcome α
  invoked : Bool
deriving DecidableEq

/-! ## The Environment Façade (`src/env.rs`) -/

namespace JNIEnv

/-- `JNIEnv::exception_check`. -/
def exception_check (env : RawEnv) : Bool := env.exception_check

/-- `JNIEnv::find_class`: mangles the readable name, converts it to a C
string (which fails on an interior NUL), and wraps the raw lookup result.
The outer `Option` layer models a panic propagating out of
`mangle_class`. -/
def find_class (env : RawEnv) (name : Str) : Option (Except Error JClass) :=
  match mangle_class name with
  | none => none
  | some sig =>
    let m := mangled sig
    if m.contains (Char.ofNat 0) then some (.error .Induced)
    else
      let new_cls := env.find_class m
      if new_cls = 0 then
        some (.error (Error.new ("Could not find Java Class " ++ String.mk name) JNI_ERR))
      else some (SmartObj.new .class_ new_cls)

/-- `JNIEnv::get_object_class`. -/
def get_object_class (env : RawEnv) (obj : JObject) : Except Error JClass :=
  let cls := env.get_object_class obj.backing_ptr
  if cls = 0 then .error (Error.new "Couldn't get object class" JNI_ERR)
  else SmartObj.new .class_ cls

/-- `JNIEnv::is_assignable_from`. -/
def is_assignable_from (env : RawEnv) (frm dst : JClass) : Bool :=
  env.is_assignable_from frm.backing_ptr dst.backing_ptr

/-- `JNIEnv::call_method`: arity check, 10-way dispatch on the cached
return kind, then the deferred exception check. -/
def call_method (env : RawEnv) (obj : JObject) (id : JMethodID)
    (args : List JValue) : OpResult (Option JValue) :=
  if args.length ≠ id.num_args then
    ⟨.err (Error.new "Invalid number of arguement for method" JNI_ERR), false⟩
  else
    let c_args := JValue.make_ffi_vec args
    let raw_obj := obj.backing_ptr
    let raw_id := id.real_id
    let step : Outcome (Option JValue) :=
      match id.ret_ty with
      | .Object =>
        let result := env.call_object_method raw_obj raw_id c_args
        if result = 0 then .ok (some (.Object none))
        else
          match SmartObj.new .object result with
          | .ok o => .ok (some (.Object (some o)))
          | .error e => .err e
      | .Boolean => .ok (some (.Bool (env.call_boolean_method raw_obj raw_id c_args)))
      | .Byte => .ok (some (.Byte (env.call_byte_method raw_obj raw_id c_args)))
      | .Char =>
        let result := env.call_char_method raw_obj raw_id c_args
        if result.isValidChar then .ok (some (.Char result)) else .panicked
      | .Short => .ok (some (.Short (env.call_short_method raw_obj raw_id c_args)))
      | .Int => .ok (some (.Int (env.call_int_method raw_obj raw_id c_args)))
      | .Long => .ok (some (.Long (env.call_long_method raw_obj raw_id c_args)))
      | .Float => .ok (some (.Float (env.call_float_method raw_obj raw_id c_args)))
      | .Double => .ok (some (.Double (env.call_double_method raw_obj raw_id c_args)))
      | .Void => .ok none
    match step with
    | .ok result =>
      if env.exception_check then
        ⟨.err (Error.new "Error occured during method call" JNI_ERR), true⟩
      else ⟨.ok result, true⟩
    | other => ⟨other, true⟩

/-- `JNIEnv::call_nonvirtual_method`. -/
def call_nonvirtual_method (env : RawEnv) (obj : JObject) (cls : JClass)
    (id : JMethodID) (args : List JValue) : OpResult (Option JValue) :=
  if args.length ≠ id.num_args then
    ⟨.err (Error.new "Invalid number of arguments for method" JNI_ERR), false⟩
  else
    let c_args := JValue.make_ffi_vec args
    let raw_obj := obj.backing_ptr
    let raw_cls := cls.backing_ptr
    let raw_id := id.real_id
    let step : Outcome (Option JValue) :=
      match id.ret_ty with
      | .Object =>
        let result := env.call_nonvirtual_object_method raw_obj raw_cls raw_id c_args
        if result = 0 then .ok (some (.Object none))
        else
          match SmartObj.new .object result with
          | .ok o => .ok (some (.Object (some o)))
          | .error e => .err e
      | .Boolean => .ok (some (.Bool (env.call_nonvirtual_boolean_method raw_obj raw_cls raw_id c_args)))
      | .Byte => .ok (some (.Byte (env.call_nonvirtual_byte_method raw_obj raw_cls raw_id c_args)))
      | .Char =>
        let result := env.call_nonvirtual_char_method raw_obj raw_cls raw_id c_args
        if result.isValidChar then .ok (some (.Char result)) else .panicked
      | .Short => .ok (some (.Short (env.call_nonvirtual_short_method raw_obj raw_cls raw_id c_args)))
      | .Int => .ok (some (.Int (env.call_nonvirtual_int_method raw_obj raw_cls raw_id c_args)))
      | .Long => .ok (some (.Long (env.call_nonvirtual_long_method raw_obj raw_cls raw_id c_args)))
      | .Float => .ok (some (.Float (env.call_nonvirtual_float_method raw_obj raw_cls raw_id c_args)))
      | .Double => .ok (some (.Double (env.call_nonvirtual_double_method raw_obj raw_cls raw_id c_args)))
      | .Void => .ok none
    match step with
    | .ok result =>
      if env.exception_check then
        ⟨.err (Error.new "Error occured during method call" JNI_ERR), true⟩
      else ⟨.ok result, true⟩
    | other => ⟨other, true⟩

/-- `JNIEnv::call_static_method`. -/
def call_static_method (env : RawEnv) (cls : JClass) (id : JMethodID)
    (args : List JValue) : OpResult (Option JValue) :=
  if args.length ≠ id.num_args then
    ⟨.err (Error.new "Invalid number of arguments for method" JNI_ERR), false⟩
  else
    let c_args := JValue.make_ffi_vec args
    let raw_cls := cls.backing_ptr
    let raw_id := id.real_id
    let step : Outcome (Option JValue) :=
      match id.ret_ty with
      | .Object =>
        let result := env.call_static_object_method raw_cls raw_id c_args
        if result = 0 then .ok (some (.Object none))
        else
          match SmartObj.new .object result with
          | .ok o => .ok (some (.Object (some o)))
          | .error e => .err e
      | .Boolean => .ok (some (.Bool (env.call_static_boolean_method raw_cls raw_id c_args)))
      | .Byte => .ok (some (.Byte (env.call_static_byte_method raw_cls raw_id c_args)))
      | .Char =>
        let result := env.call_static_char_method raw_cls raw_id c_args
        if result.isValidChar then .ok (some (.Char result)) else .panicked
      | .Short => .ok (some (.Short (env.call_static_short_method raw_cls raw_id c_args)))
      | .Int => .ok (some (.Int (env.call_static_int_method raw_cls raw_id c_args)))
      | .Long => .ok (some (.Long (env.call_static_long_method raw_cls raw_id c_args)))
      | .Float => .ok (some (.Float (env.call_static_float_method raw_cls raw_id c_args)))
      | .Double => .ok (some (.Double (env.call_static_double_method raw_cls raw_id c_args)))
      | .Void => .ok none
    match step with
    | .ok result =>
      if env.exception_check then
        ⟨.err (Error.new "Error occured during method call" JNI_ERR), true⟩
      else ⟨.ok result, true⟩
    | other => ⟨other, true⟩

/-- `JNIEnv::get_field`: 9-way dispatch on the cached field kind; a null
object result becomes the absent `Object`. There is no post-call
exception check here in the source. -/
def get_field (env : RawEnv) (obj : JObject) (id : JFieldID) : Outcome JValue :=
  let raw_obj := obj.backing_ptr
  let raw_id := id.real_id
  match id.ty with
  | .Object =>
    let result := env.get_object_field raw_obj raw_id
    if result = 0 then .ok (.Object none)
    else
      match SmartObj.new .object result with
      | .ok o => .ok (.Object (some o))
      | .error e => .err e
  | .Boolean => .ok (.Bool (env.get_boolean_field raw_obj raw_id))
  | .Byte => .ok (.Byte (env.get_byte_field raw_obj raw_id))
  | .Char =>
    let r := env.get_char_field raw_obj raw_id
    if r.isValidChar then .ok (.Char r) else .panicked
  | .Short => .ok (.Short (env.get_short_field raw_obj raw_id))
  | .Int => .ok (.Int (env.get_int_field raw_obj raw_id))
  | .Long => .ok (.Long (env.get_long_field raw_obj raw_id))
  | .Float => .ok (.Float (env.get_float_field raw_obj raw_id))
  | .Double => .ok (.Double (env.get_double_field raw_obj raw_id))

/-- `JNIEnv::get_static_field`. -/
def get_static_field (env : RawEnv) (cls : JClass) (id : JFieldID) : Outcome JValue :=
  let raw_cls := cls.backing_ptr
  let raw_id := id.real_id
  match id.ty with
  | .Object =>
    let result := env.get_static_object_field raw_cls raw_id
    if result = 0 then .ok (.Object none)
    else
      match SmartObj.new .object result with
      | .ok o => .ok (.Object (some o))
      | .error e => .err e
  | .Boolean => .ok (.Bool (env.get_static_boolean_field raw_cls raw_id))
  | .Byte => .ok (.Byte (env.get_static_byte_field raw_cls raw_id))
  | .Char =>
    let r := env.get_static_char_field raw_cls raw_id
    if r.isValidChar then .ok (.Char r) else .panicked
  | .Short => .ok (.Short (env.get_static_short_field raw_cls raw_id))
  | .Int => .ok (.Int (env.get_static_int_field raw_cls raw_id))
  | .Long => .ok (.Long (env.get_static_long_field raw_cls raw_id))
  | .Float => .ok (.Float (env.get_static_float_field raw_cls raw_id))
  | .Double => .ok (.Double (env.get_static_double_field raw_cls raw_id))

/-- `JNIEnv::set_field`: converts the tagged value through the matching
`into_<kind>` (propagating its mismatch error), performs the raw set, and
returns `Ok(())` — the source performs no post-call exception check. The
raw setters return nothing, so only the control flow is observable. -/
def set_field (env : RawEnv) (obj : JObject) (id : JFieldID) (val : JValue) :
    Except Error Unit :=
  match id.ty with
  | .Object =>
    match val.into_obj with
    | .error e => .error e
    | .ok obj2 =>
      let _ptr := match obj2 with | some o => o.backing_ptr | none => 0
      .ok ()
  | .Boolean => match val.into_bool with | .error e => .error e | .ok _ => .ok ()
  | .Byte => match val.into_byte with | .error e => .error e | .ok _ => .ok ()
  | .Char => match val.into_char with | .error e => .error e | .ok _ => .ok ()
  | .Short => match val.into_short with | .error e => .error e | .ok _ => .ok ()
  | .Int => match val.into_int with | .error e => .error e | .ok _ => .ok ()
  | .Long => match val.into_long with | .error e => .error e | .ok _ => .ok ()
  | .Float => match val.into_float with | .error e => .error e | .ok _ => .ok ()
  | .Double => match val.into_double with | .error e => .error e | .ok _ => .ok ()

/-- `JNIEnv::set_static_field`: same shape as `set_field`, against a
class. -/
def set_static_field (env : RawEnv) (cls : JClass) (id : JFieldID) (val : JValue) :
    Except Error Unit :=
  match id.ty with
  | .Object =>
    match val.into_obj with
    | .error e => .error e
    | .ok obj2 =>
      let _ptr := match obj2 with | some o => o.backing_ptr | none => 0
      .ok ()
  | .Boolean => match val.into_bool with | .error e => .error e | .ok _ => .ok ()
  | .Byte => match val.into_byte with | .error e => .error e | .ok _ => .ok ()
  | .Char => match val.into_char with | .error e => .error e | .ok _ => .ok ()
  | .Short => match val.into_short with | .error e => .error e | .ok _ => .ok ()
  | .Int => match val.into_int with | .error e => .error e | .ok _ => .ok ()
  | .Long => match val.into_long with | .error e => .error e | .ok _ => .ok ()
  | .Float => match val.into_float with | .error e => .error e | .ok _ => .ok ()
  | .Double => match val.into_double with | .error e => .error e | .ok _ => .ok ()

/-- `JNIEnv::throw`: a non-zero raw result is reported with the *constant*
`JNI_ERR`, not the raw result code. -/
def throw (env : RawEnv) (exception : JThrowable) : Except Error Unit :=
  let result := env.throw exception.backing_ptr
  if result ≠ 0 then .error (Error.new "Could not throw exception" JNI_ERR)
  else .ok ()

/-- `JNIEnv::throw_new`: the message goes through `cstr_from_str` (NUL
check); a non-zero raw result is reported with the constant `JNI_ERR`. -/
def throw_new (env : RawEnv) (cls : JClass) (msg : String) : Except Error Unit :=
  if msg.toList.contains (Char.ofNat 0) then .error .Induced
  else
    let result := env.throw_new cls.backing_ptr msg
    if result ≠ 0 then .error (Error.new "Could not throw exception" JNI_ERR)
    else .ok ()

/-- `JNIEnv::ensure_local_capacity`: the raw result code is carried in the
error. -/
def ensure_local_capacity (env : RawEnv) (capacity : Int) : Except Error Unit :=
  let result := env.ensure_local_capacity capacity
  if result ≠ 0 then
    .error (Error.new ("Couldn't ensure local capacity of at least " ++ toString capacity) result)
  else .ok ()

/-- `JNIEnv::push_local_frame` (the "from" in the message is the source's
own typo). -/
def push_local_frame (env : RawEnv) (capacity : Int) : Except Error Unit :=
  let result := env.push_local_frame capacity
  if result ≠ 0 then
    .error (Error.new ("Couldn't push local from with capacity " ++ toString capacity) result)
  else .ok ()

/-- `JNIEnv::register_natives` (the `JNINativeMethod::make_ffi_vec`
repackaging is pointer-for-pointer and is passed through). -/
def register_natives (env : RawEnv) (cls : JClass)
    (methods : List JNINativeMethod) : Except Error Unit :=
  let result := env.register_natives cls.backing_ptr methods
  if result ≠ 0 then .error (Error.new "Couldn't register native methods" result)
  else .ok ()

/-- `JNIEnv::unregister_natives`. -/
def unregister_natives (env : RawEnv) (cls : JClass) : Except Error Unit :=
  let result := env.unregister_natives cls.backing_ptr
  if result ≠ 0 then .error (Error.new "Couldn't unregister native methods" result)
  else .ok ()

/-- `JNIEnv::monitor_enter`. -/
def monitor_enter (env : RawEnv) (obj : JObject) : Except Error Unit :=
  let result := env.monitor_enter obj.backing_ptr
  if result ≠ 0 then .error (Error.new "Couldn't enter monitor" result)
  else .ok ()

/-- `JNIEnv::monitor_exit`. -/
def monitor_exit (env : RawEnv) (obj : JObject) : Except Error Unit :=
  let result := env.monitor_exit obj.backing_ptr
  if result ≠ 0 then .error (Error.new "Couldn't exit monitor" result)
  else .ok ()

/-- `JNIEnv::release_native_array_elements`: the kind guard runs before
any raw entry point; on a match the per-kind raw release is invoked
(`invoked`), which returns nothing. -/
def release_native_array_elements (env : RawEnv) (arr : JNativeArray)
    (slice : JNativeSlice) (mode : ReleaseMode) : OpResult Unit :=
  if arr.jtype ≠ slice.jtype then
    ⟨.err (Error.new "Invalid array/slice combo" JNI_ERR), false⟩
  else
    let _mode := mode.into
    ⟨.ok (), true⟩

/-- `JNIEnv::set_native_array_region`: kind guard, then the per-kind raw
region set; the inner mismatch arms are the source's `unreachable!()`. -/
def set_native_array_region (env : RawEnv) (arr : JNativeArray)
    (start len : Nat) (slice : JNativeVec) : OpResult Unit :=
  if arr.jtype ≠ slice.jtype then
    ⟨.err (Error.new "Invalid array/vec combo" JNI_ERR), false⟩
  else
    match arr, slice with
    | .Boolean _, .Boolean _ => ⟨.ok (), true⟩
    | .Byte _, .Byte _ => ⟨.ok (), true⟩
    | .Char _, .Char vec =>
      let _temp := vec.map (fun c => c % 65536)
      ⟨.ok (), true⟩
    | .Short _, .Short _ => ⟨.ok (), true⟩
    | .Int _, .Int _ => ⟨.ok (), true⟩
    | .Long _, .Long _ => ⟨.ok (), true⟩
    | .Float _, .Float _ => ⟨.ok (), true⟩
    | .Double _, .Double _ => ⟨.ok (), true⟩
    | _, _ => ⟨.panicked, false⟩

/-- `JNIEnv::release_primitive_array_critical`: kind guard before the raw
release. -/
def release_primitive_array_critical (env : RawEnv) (arr : JNativeArray)
    (slice : JNativeSlice) (mode : ReleaseMode) : OpResult Unit :=
  if arr.jtype ≠ slice.jtype then
    ⟨.err (Error.new "Invalid array/slice combo" JNI_ERR), false⟩
  else
    let _mode := mode.into
    ⟨.ok (), true⟩

end JNIEnv

/-! ## Checked upcasts (the `upcast!` macro of `src/types/object.rs`)

Every `upcast!` edge in the source is `upcast!(JObject, $y)`, and the
macro body reads `Self::get_java_name()` — the *source* type `JObject`'s
name — to resolve the class it checks assignability against, for every
target `$y`. -/

/-- The value-upcast generated by `upcast!(JObject, $y)`, for target kind
`k`. The outer `Option` models a panic out of `find_class`. -/
def upcast (k : Kind) (env : RawEnv) (self : JObject) :
    Option (Except Error (SmartObj k)) :=
  let self_name := get_java_name Kind.object
  match JNIEnv.find_class env self_name with
  | none => none
  | some (.error e) => some (.error e)
  | some (.ok cast_cls) =>
    match JNIEnv.get_object_class env self with
    | .error e => some (.error e)
    | .ok cls =>
      if ¬JNIEnv.is_assignable_from env cls cast_cls then
        some (.error (Error.new ("Can't assign to type " ++ String.mk self_name) (-1)))
      else
        some (SmartObj.new k self.backing_ptr)

/-- `upcast_raw` of the `upcast!` macro: an unchecked reinterpretation
through the target's constructor (`unwrap` panics on null). -/
def upcast_raw (k : Kind) (self : JObject) : Option (SmartObj k) :=
  match SmartObj.new k self.backing_ptr with
  | .ok h => some h
  | .error _ => none

/-! ## Spec-side definitions

Definitions in this section follow the specification text rather than the
source, and exist to state claims about the source against it. -/

/-- The comma-and-space join of a method argument list, following the
spec grammar `"(" arg, arg, ... ")" "->" ret`. -/
def commaJoin : List Str → Str
  | [] => []
  | [a] => a
  | a :: rest => a ++ ',' :: ' ' :: commaJoin rest

/-- The spec's descriptor grammar (§4.1): a bare primitive name, a dotted
class name, a `"[]"`-suffixed signature, or a `"(args) -> ret"` method
shape. Used to state which strings are well formed. -/
inductive SpecGrammar : Str → Prop
  | prim (s : Str) : is_primitive s = true → SpecGrammar s
  | classRef (s : Str) : s ≠ [] →
      (∀ c ∈ s, c.isAlphanum = true ∨ c = '.' ∨ c = '_' ∨ c = '$') →
      SpecGrammar s
  | array (s : Str) : SpecGrammar s → SpecGrammar (s ++ ['[', ']'])
  | method (args : List Str) (ret : Str) :
      (∀ a ∈ args, SpecGrammar a) → SpecGrammar ret →
      SpecGrammar ('(' :: commaJoin args ++ [')', ' ', '-', '>', ' '] ++ ret)

theorem SpecGrammar_ne_nil {s : Str} (h : SpecGrammar s) : s ≠ [] := by
  induction h with
  | prim s hp =>
    intro he
    subst he
    exact absurd hp (by decide)
  | classRef s hne _ => exact hne
  | array s _ _ => simp
  | method args ret _ _ _ _ => simp

/-- Whether a tagged value's arm matches a field kind — the condition
under which the source's field-set operations succeed. -/
def fieldKindMatches : JNonVoidType → JValue → Bool
  | .Object, .Object _ => true
  | .Boolean, .Bool _ => true
  | .Byte, .Byte _ => true
  | .Char, .Char _ => true
  | .Short, .Short _ => true
  | .Int, .Int _ => true
  | .Long, .Long _ => true
  | .Float, .Float _ => true
  | .Double, .Double _ => true
  | _, _ => false

/-- The nine primitive names with their single-letter codes, as fixed by
the managed runtime's descriptor format. -/
def primPairs : List (Str × Str) :=
  [(['b', 'o', 'o', 'l', 'e', 'a', 'n'], ['Z']),
   (['b', 'y', 't', 'e'], ['B']),
   (['c', 'h', 'a', 'r'], ['C']),
   (['s', 'h', 'o', 'r', 't'], ['S']),
   (['i', 'n', 't'], ['I']),
   (['l', 'o', 'n', 'g'], ['J']),
   (['f', 'l', 'o', 'a', 't'], ['F']),
   (['d', 'o', 'u', 'b', 'l', 'e'], ['D']),
   (['v', 'o', 'i', 'd'], ['V'])]

/-! ## Concrete oracle environments for witnesses and counterexamples -/

/-- A benign concrete runtime oracle: no exception pending, every lookup
succeeds with pointer 1, every result code is 0. -/
def baseEnv : RawEnv where
  exception_check := false
  find_class := fun _ => 1
  get_object_class := fun _ => 1
  is_assignable_from := fun _ _ => true
  call_object_method := fun _ _ _ => 1
  call_boolean_method := fun _ _ _ => true
  call_byte_method := fun _ _ _ => 0
  call_char_method := fun _ _ _ => 65
  call_short_method := fun _ _ _ => 0
  call_int_method := fun _ _ _ => 0
  call_long_method := fun _ _ _ => 0
  call_float_method := fun _ _ _ => 0
  call_double_method := fun _ _ _ => 0
  call_nonvirtual_object_method := fun _ _ _ _ => 1
  call_nonvirtual_boolean_method := fun _ _ _ _ => true
  call_nonvirtual_byte_method := fun _ _ _ _ => 0
  call_nonvirtual_char_method := fun _ _ _ _ => 65
  call_nonvirtual_short_method := fun _ _ _ _ => 0
  call_nonvirtual_int_method := fun _ _ _ _ => 0
  call_nonvirtual_long_method := fun _ _ _ _ => 0
  call_nonvirtual_float_method := fun _ _ _ _ => 0
  call_nonvirtual_double_method := fun _ _ _ _ => 0
  call_static_object_method := fun _ _ _ => 1
  call_static_boolean_method := fun _ _ _ => true
  call_static_byte_method := fun _ _ _ => 0
  call_static_char_method := fun _ _ _ => 65
  call_static_short_method := fun _ _ _ => 0
  call_static_int_method := fun _ _ _ => 0
  call_static_long_method := fun _ _ _ => 0
  call_static_float_method := fun _ _ _ => 0
  call_static_double_method := fun _ _ _ => 0
  get_object_field := fun _ _ => 1
  get_boolean_field := fun _ _ => true
  get_byte_field := fun _ _ => 0
  get_char_field := fun _ _ => 65
  get_short_field := fun _ _ => 0
  get_int_field := fun _ _ => 0
  get_long_field := fun _ _ => 0
  get_float_field := fun _ _ => 0
  get_double_field := fun _ _ => 0
  get_static_object_field := fun _ _ => 1
  get_static_boolean_field := fun _ _ => true
  get_static_byte_field := fun _ _ => 0
  get_static_char_field := fun _ _ => 65
  get_static_short_field := fun _ _ => 0
  get_static_int_field := fun _ _ => 0
  get_static_long_field := fun _ _ => 0
  get_static_float_field := fun _ _ => 0
  get_static_double_field := fun _ _ => 0
  throw := fun _ => 0
  throw_new := fun _ _ => 0
  ensure_local_capacity := fun _ => 0
  push_local_frame := fun _ => 0
  register_natives := fun _ _ => 0
  unregister_natives := fun _ => 0
  monitor_enter := fun _ => 0
  monitor_exit := fun _ => 0

/-- The mangled form `find_class` derives from `JObject`'s
`get_java_name()` (the name the `upcast!` macro actually looks up). -/
def mangledSelfName : Str :=
  'L' :: replaceDots (get_java_name Kind.object) ++ [';']

/-- A runtime oracle on which the object's live class (30) is assignable
to the class resolved from the *target's* declared binary name (20), but
not to the class resolved from `JObject`'s own name (10). -/
def upcastEnvCE : RawEnv :=
  { baseEnv with
    find_class := fun m => if m = mangledSelfName then 10 else 20
    get_object_class := fun _ => 30
    is_assignable_from := fun a b => a == 30 && b == 20 }

/-- An oracle with the exception-pending flag raised. -/
def envPending : RawEnv := { baseEnv with exception_check := true }

/-- An oracle with the pending flag raised whose object-returning calls
yield the null pointer. -/
def envC7 : RawEnv :=
  { baseEnv with
    exception_check := true
    call_object_method := fun _ _ _ => 0 }

/-- An oracle whose raw `Throw` reports the failure code `-2`. -/
def envThrowCE : RawEnv := { baseEnv with throw := fun _ => -2 }

/-! ## Claims -/

/-- C3: for all 9 `JValue` arms, each `into_X` conversion returns `Ok`
exactly when the value was constructed as that same arm, and returns the
type-mismatch error for every other arm; no conversion silently coerces
one arm into another. -/
theorem jvalue_into_exhaustive (v : JValue) :
    ((∀ o, v.into_obj = .ok o ↔ v = .Object o) ∧
      ((∀ o, v ≠ .Object o) →
        v.into_obj = .error (Error.new "JValue isn't an object" JNI_ERR))) ∧
    ((∀ b, v.into_bool = .ok b ↔ v = .Bool b) ∧
      ((∀ b, v ≠ .Bool b) →
        v.into_bool = .error (Error.new "JValue isn't a boolean" JNI_ERR))) ∧
    ((∀ b, v.into_byte = .ok b ↔ v = .Byte b) ∧
      ((∀ b, v ≠ .Byte b) →
        v.into_byte = .error (Error.new "JValue isn't a byte" JNI_ERR))) ∧
    ((∀ c, v.into_char = .ok c ↔ v = .Char c) ∧
      ((∀ c, v ≠ .Char c) →
        v.into_char = .error (Error.new "JValue isn't a char" JNI_ERR))) ∧
    ((∀ s, v.into_short = .ok s ↔ v = .Short s) ∧
      ((∀ s, v ≠ .Short s) →
        v.into_short = .error (Error.new "JValue isn't a short" JNI_ERR))) ∧
    ((∀ i, v.into_int = .ok i ↔ v = .Int i) ∧
      ((∀ i, v ≠ .Int i) →
        v.into_int = .error (Error.new "JValue isn't an integer" JNI_ERR))) ∧
    ((∀ l, v.into_long = .ok l ↔ v = .Long l) ∧
      ((∀ l, v ≠ .Long l) →
        v.into_long = .error (Error.new "JValue isn't a long" JNI_ERR))) ∧
    ((∀ f, v.into_float = .ok f ↔ v = .Float f) ∧
      ((∀ f, v ≠ .Float f) →
        v.into_float = .error (Error.new "JValue isn't a float" JNI_ERR))) ∧
    ((∀ d, v.into_double = .ok d ↔ v = .Double d) ∧
      ((∀ d, v ≠ .Double d) →
        v.into_double = .error (Error.new "JValue isn't a double" JNI_ERR))) := by
  cases v <;>
    simp [JValue.into_obj, JValue.into_bool, JValue.into_byte, JValue.into_char,
      JValue.into_short, JValue.into_int, JValue.into_long, JValue.into_float,
      JValue.into_double]

/-- Witness for C3: spec scenario (5) — `into_int` on a value built as
`Bool(true)` is the integer type-mismatch error. -/
theorem jvalue_into_exhaustive_witness :
    (JValue.Bool true).into_int
      = .error (Error.new "JValue isn't an integer" JNI_ERR) := by
  obtain ⟨_, _, _, _, _, hInt, _⟩ := jvalue_into_exhaustive (JValue.Bool true)
  exact hInt.2 (fun i h => by cases h)

/-- C10: each of the three call families returns an arity error, without
invoking any raw dispatch entry point, whenever the supplied argument
count differs from the `JMethodID`'s recorded arity; dispatch is reached
only on an exact match. -/
theorem arity_checked_before_dispatch (env : RawEnv) (obj : JObject)
    (cls : JClass) (id : JMethodID) (args : List JValue)
    (h : args.length ≠ id.num_args) :
    JNIEnv.call_method env obj id args
      = ⟨.err (Error.new "Invalid number of arguement for method" JNI_ERR), false⟩ ∧
    JNIEnv.call_nonvirtual_method env obj cls id args
      = ⟨.err (Error.new "Invalid number of arguments for method" JNI_ERR), false⟩ ∧
    JNIEnv.call_static_method env cls id args
      = ⟨.err (Error.new "Invalid number of arguments for method" JNI_ERR), false⟩ := by
  refine ⟨?_, ?_, ?_⟩
  · unfold JNIEnv.call_method
    simp [h]
  · unfold JNIEnv.call_nonvirtual_method
    simp [h]
  · unfold JNIEnv.call_static_method
    simp [h]

/-- Witness for C10: one argument against a zero-arity method id. -/
theorem arity_checked_before_dispatch_witness :
    (JNIEnv.call_method baseEnv ⟨1⟩ ⟨5, .Void, 0⟩ [JValue.Int 3]).invoked = false := by
  have h := arity_checked_before_dispatch baseEnv ⟨1⟩ ⟨1⟩ ⟨5, .Void, 0⟩
    [JValue.Int 3] (by decide)
  rw [h.1]

/-- C8: the array release and region-set operations that take both an
array and a caller-supplied view/buffer check the element kinds first: on
a mismatch they return the typed invalid-combination error without
invoking any raw entry point; on a match the raw release/set is performed
and `Ok` is returned. -/
theorem array_kind_guard (env : RawEnv) (arr : JNativeArray)
    (slice : JNativeSlice) (vec : JNativeVec) (mode : ReleaseMode)
    (start len : Nat) :
    (arr.jtype ≠ slice.jtype →
      JNIEnv.release_native_array_elements env arr slice mode
        = ⟨.err (Error.new "Invalid array/slice combo" JNI_ERR), false⟩ ∧
      JNIEnv.release_primitive_array_critical env arr slice mode
        = ⟨.err (Error.new "Invalid array/slice combo" JNI_ERR), false⟩) ∧
    (arr.jtype = slice.jtype →
      JNIEnv.release_native_array_elements env arr slice mode = ⟨.ok (), true⟩ ∧
      JNIEnv.release_primitive_array_critical env arr slice mode = ⟨.ok (), true⟩) ∧
    (arr.jtype ≠ vec.jtype →
      JNIEnv.set_native_array_region env arr start len vec
        = ⟨.err (Error.new "Invalid array/vec combo" JNI_ERR), false⟩) ∧
    (arr.jtype = vec.jtype →
      JNIEnv.set_native_array_region env arr start len vec = ⟨.ok (), true⟩) := by
  refine ⟨?_, ?_, ?_, ?_⟩
  · intro h
    constructor
    · unfold JNIEnv.release_native_array_elements
      simp [h]
    · unfold JNIEnv.release_primitive_array_critical
      simp [h]
  · intro h
    constructor
    · unfold JNIEnv.release_native_array_elements
      simp [h]
    · unfold JNIEnv.release_primitive_array_critical
      simp [h]
  · intro h
    unfold JNIEnv.set_native_array_region
    simp [h]
  · intro h
    cases arr <;> cases vec <;>
      simp_all [JNativeArray.jtype, JNativeVec.jtype,
        JNIEnv.set_native_array_region]

/-- Witness for C8: a byte array against a byte slice/vec succeeds, and
against an int slice fails before the ABI. -/
theorem array_kind_guard_witness :
    JNIEnv.release_native_array_elements baseEnv (.Byte ⟨2⟩) (.Int [0])
        ReleaseMode.CopyFree
      = ⟨.err (Error.new "Invalid array/slice combo" JNI_ERR), false⟩ ∧
    JNIEnv.set_native_array_region baseEnv (.Byte ⟨2⟩) 0 1 (.Byte [1])
      = ⟨.ok (), true⟩ := by
  have h := array_kind_guard baseEnv (.Byte ⟨2⟩) (.Int [0]) (.Byte [1])
    ReleaseMode.CopyFree 0 1
  exact ⟨(h.1 (by decide)).1, h.2.2.2 (by decide)⟩

/-- C9 (corrected): the operations reporting failure through a signed
integer result code carry that code verbatim in the structured error for
`ensure_local_capacity`, `push_local_frame`, `register_natives`,
`unregister_natives`, `monitor_enter` and `monitor_exit`; but `throw` and
`throw_new` discard the raw code and always report the constant
`JNI_ERR` (-1). -/
theorem result_codes_carried :
    (∀ (env : RawEnv) (cap : Int), env.ensure_local_capacity cap ≠ 0 →
      JNIEnv.ensure_local_capacity env cap = .error (Error.new
        ("Couldn't ensure local capacity of at least " ++ toString cap)
        (env.ensure_local_capacity cap))) ∧
    (∀ (env : RawEnv) (cap : Int), env.push_local_frame cap ≠ 0 →
      JNIEnv.push_local_frame env cap = .error (Error.new
        ("Couldn't push local from with capacity " ++ toString cap)
        (env.push_local_frame cap))) ∧
    (∀ (env : RawEnv) (cls : JClass) (methods : List JNINativeMethod),
      env.register_natives cls.backing_ptr methods ≠ 0 →
      JNIEnv.register_natives env cls methods = .error (Error.new
        "Couldn't register native methods"
        (env.register_natives cls.backing_ptr methods))) ∧
    (∀ (env : RawEnv) (cls : JClass), env.unregister_natives cls.backing_ptr ≠ 0 →
      JNIEnv.unregister_natives env cls = .error (Error.new
        "Couldn't unregister native methods"
        (env.unregister_natives cls.backing_ptr))) ∧
    (∀ (env : RawEnv) (obj : JObject), env.monitor_enter obj.backing_ptr ≠ 0 →
      JNIEnv.monitor_enter env obj = .error (Error.new "Couldn't enter monitor"
        (env.monitor_enter obj.backing_ptr))) ∧
    (∀ (env : RawEnv) (obj : JObject), env.monitor_exit obj.backing_ptr ≠ 0 →
      JNIEnv.monitor_exit env obj = .error (Error.new "Couldn't exit monitor"
        (env.monitor_exit obj.backing_ptr))) ∧
    (∀ (env : RawEnv) (exc : JThrowable), env.throw exc.backing_ptr ≠ 0 →
      JNIEnv.throw env exc
        = .error (Error.new "Could not throw exception" JNI_ERR)) ∧
    (∀ (env : RawEnv) (cls : JClass) (msg : String),
      msg.toList.contains (Char.ofNat 0) = false →
      env.throw_new cls.backing_ptr msg ≠ 0 →
      JNIEnv.throw_new env cls msg
        = .error (Error.new "Could not throw exception" JNI_ERR)) := by
  refine ⟨?_, ?_, ?_, ?_, ?_, ?_, ?_, ?_⟩
  · intro env cap h
    unfold JNIEnv.ensure_local_capacity
    simp [h]
  · intro env cap h
    unfold JNIEnv.push_local_frame
    simp [h]
  · intro env cls methods h
    unfold JNIEnv.register_natives
    simp [h]
  · intro env cls h
    unfold JNIEnv.unregister_natives
    simp [h]
  · intro env obj h
    unfold JNIEnv.monitor_enter
    simp [h]
  · intro env obj h
    unfold JNIEnv.monitor_exit
    simp [h]
  · intro env exc h
    unfold JNIEnv.throw
    simp [h]
  · intro env cls msg hn h
    unfold JNIEnv.throw_new
    simp [hn, h]
    intro hm
    exact absurd hm (by simpa using hn)

/-- Counterexample for C9 as stated: the raw `Throw` reports `-2`, but
the structured error carries the constant `-1` — the ABI code is not
preserved verbatim for `throw`. -/
theorem throw_discards_result_code :
    upcastEnvCE.throw 5 = 0 ∧
    envThrowCE.throw 5 = -2 ∧
    JNIEnv.throw envThrowCE ⟨5⟩
      = .error (Error.new "Could not throw exception" (-1)) ∧
    (-2 : Int) ≠ (-1 : Int) := by
  refine ⟨rfl, rfl, ?_, by decide⟩
  unfold JNIEnv.throw
  simp [envThrowCE, baseEnv, JNI_ERR]

/-- Witness for C9's theorem: `ensure_local_capacity` carries the raw
code `-4` verbatim. -/
theorem result_codes_carried_witness :
    JNIEnv.ensure_local_capacity
        { baseEnv with ensure_local_capacity := fun _ => -4 } 7
      = .error (Error.new ("Couldn't ensure local capacity of at least " ++ toString (7 : Int)) (-4)) := by
  have h := result_codes_carried.1
    { baseEnv with ensure_local_capacity := fun _ => -4 } 7 (by decide)
  exact h

/-- The common final stage of the three call families: if the dispatch
result passes through the exception check and comes out `ok`, the flag
was clear. -/
theorem call_tail_ok {step : Outcome (Option JValue)} {flag : Bool}
    {v : Option JValue}
    (h : (match step with
          | .ok result =>
            if flag then
              (⟨.err (Error.new "Error occured during method call" JNI_ERR),
                true⟩ : OpResult (Option JValue))
            else ⟨.ok result, true⟩
          | other => ⟨other, true⟩).res = .ok v) :
    flag = false := by
  cases step with
  | ok r =>
    cases hf : flag
    · rfl
    · rw [hf] at h
      simp at h
  | err e => simp at h
  | panicked => simp at h

/-- C2 (corrected): the three call families convert a pending exception
into a failure result — an `Ok` outcome implies the flag was clear — but
`set_field` and `set_static_field` never consult the flag: they return
`Ok` exactly when the tagged value's arm matches the field's kind,
whatever the flag. -/
theorem pending_exception_handling :
    (∀ (env : RawEnv) (obj : JObject) (id : JMethodID) (args : List JValue)
        (v : Option JValue),
      (JNIEnv.call_method env obj id args).res = .ok v →
      env.exception_check = false) ∧
    (∀ (env : RawEnv) (obj : JObject) (cls : JClass) (id : JMethodID)
        (args : List JValue) (v : Option JValue),
      (JNIEnv.call_nonvirtual_method env obj cls id args).res = .ok v →
      env.exception_check = false) ∧
    (∀ (env : RawEnv) (cls : JClass) (id : JMethodID) (args : List JValue)
        (v : Option JValue),
      (JNIEnv.call_static_method env cls id args).res = .ok v →
      env.exception_check = false) ∧
    (∀ (env : RawEnv) (obj : JObject) (id : JFieldID) (val : JValue),
      (JNIEnv.set_field env obj id val).isOk = fieldKindMatches id.ty val) ∧
    (∀ (env : RawEnv) (cls : JClass) (id : JFieldID) (val : JValue),
      (JNIEnv.set_static_field env cls id val).isOk = fieldKindMatches id.ty val) := by
  refine ⟨?_, ?_, ?_, ?_, ?_⟩
  · intro env obj id args v h
    unfold JNIEnv.call_method at h
    split at h
    · simp at h
    · exact call_tail_ok h
  · intro env obj cls id args v h
    unfold JNIEnv.call_nonvirtual_method at h
    split at h
    · simp at h
    · exact call_tail_ok h
  · intro env cls id args v h
    unfold JNIEnv.call_static_method at h
    split at h
    · simp at h
    · exact call_tail_ok h
  · intro env obj id val
    obtain ⟨rid, ty⟩ := id
    cases ty <;> cases val <;>
      simp [JNIEnv.set_field, fieldKindMatches, JValue.into_obj,
        JValue.into_bool, JValue.into_byte, JValue.into_char,
        JValue.into_short, JValue.into_int, JValue.into_long,
        JValue.into_float, JValue.into_double, Except.isOk, Except.toBool]
  · intro env cls id val
    obtain ⟨rid, ty⟩ := id
    cases ty <;> cases val <;>
      simp [JNIEnv.set_static_field, fieldKindMatches, JValue.into_obj,
        JValue.into_bool, JValue.into_byte, JValue.into_char,
        JValue.into_short, JValue.into_int, JValue.into_long,
        JValue.into_float, JValue.into_double, Except.isOk, Except.toBool]

/-- Counterexample for C2 as stated: with the exception-pending flag
raised, `set_field` of a matching `Int` value still returns `Ok` — the
field-set operations do not consult the flag. -/
theorem set_field_ignores_pending_flag :
    envPending.exception_check = true ∧
    JNIEnv.set_field envPending ⟨1⟩ ⟨7, .Int⟩ (JValue.Int 0) = .ok () := by
  exact ⟨rfl, rfl⟩

/-- Witness for C2's theorem: a void call on a clear-flag oracle returns
`Ok`, and the theorem recovers that the flag was clear; a mismatched
field set fails. -/
theorem pending_exception_handling_witness :
    baseEnv.exception_check = false ∧
    (JNIEnv.set_field baseEnv ⟨1⟩ ⟨7, .Int⟩ (JValue.Bool true)).isOk
      = fieldKindMatches JNonVoidType.Int (JValue.Bool true) := by
  constructor
  · exact pending_exception_handling.1 baseEnv ⟨1⟩ ⟨5, .Void, 0⟩ [] none (by decide)
  · exact pending_exception_handling.2.2.2.1 baseEnv ⟨1⟩ ⟨7, .Int⟩ (JValue.Bool true)

/-- An `ok` handle out of a `smart_obj!` constructor wraps exactly the
given, non-null pointer. -/
theorem SmartObj_new_ok {k : Kind} {p : Nat} {h : SmartObj k}
    (he : SmartObj.new k p = .ok h) : h.backing_ptr = p ∧ p ≠ 0 := by
  unfold SmartObj.new at he
  split at he
  · exact absurd he (by simp)
  · rename_i hne
    cases he
    exact ⟨rfl, hne⟩

/-- The final stage of the call families passes an `ok` value through
unchanged. -/
theorem call_tail_ok_val {step : Outcome (Option JValue)} {flag : Bool}
    {v : Option JValue}
    (h : (match step with
          | .ok result =>
            if flag then
              (⟨.err (Error.new "Error occured during method call" JNI_ERR),
                true⟩ : OpResult (Option JValue))
            else ⟨.ok result, true⟩
          | other => ⟨other, true⟩).res = .ok v) :
    step = .ok v := by
  cases step with
  | ok r =>
    cases hf : flag
    · rw [hf] at h
      simp at h
      rw [h]
    · rw [hf] at h
      simp at h
  | err e => simp at h
  | panicked => simp at h

/-- C7 (corrected): in the Object dispatch arm of the call families and
the field gets, a null raw result becomes the absent `Object(None)` with
an `Ok` outcome and a non-null result is wrapped into a handle — for the
call families provided no exception is pending (a pending exception turns
even a null result into a failure, refuted separately); the field gets
are unconditional. -/
theorem object_arm_null_is_absent :
    (∀ (env : RawEnv) (obj : JObject) (id : JMethodID) (args : List JValue),
      id.ret_ty = .Object → args.length = id.num_args →
      env.exception_check = false →
      (JNIEnv.call_method env obj id args).res =
        (if env.call_object_method obj.backing_ptr id.real_id (JValue.make_ffi_vec args) = 0
         then .ok (some (.Object none))
         else .ok (some (.Object (some ⟨env.call_object_method obj.backing_ptr id.real_id (JValue.make_ffi_vec args)⟩))))) ∧
    (∀ (env : RawEnv) (obj : JObject) (cls : JClass) (id : JMethodID) (args : List JValue),
      id.ret_ty = .Object → args.length = id.num_args →
      env.exception_check = false →
      (JNIEnv.call_nonvirtual_method env obj cls id args).res =
        (if env.call_nonvirtual_object_method obj.backing_ptr cls.backing_ptr id.real_id (JValue.make_ffi_vec args) = 0
         then .ok (some (.Object none))
         else .ok (some (.Object (some ⟨env.call_nonvirtual_object_method obj.backing_ptr cls.backing_ptr id.real_id (JValue.make_ffi_vec args)⟩))))) ∧
    (∀ (env : RawEnv) (cls : JClass) (id : JMethodID) (args : List JValue),
      id.ret_ty = .Object → args.length = id.num_args →
      env.exception_check = false →
      (JNIEnv.call_static_method env cls id args).res =
        (if env.call_static_object_method cls.backing_ptr id.real_id (JValue.make_ffi_vec args) = 0
         then .ok (some (.Object none))
         else .ok (some (.Object (some ⟨env.call_static_object_method cls.backing_ptr id.real_id (JValue.make_ffi_vec args)⟩))))) ∧
    (∀ (env : RawEnv) (obj : JObject) (id : JFieldID),
      id.ty = .Object →
      JNIEnv.get_field env obj id =
        (if env.get_object_field obj.backing_ptr id.real_id = 0
         then .ok (.Object none)
         else .ok (.Object (some ⟨env.get_object_field obj.backing_ptr id.real_id⟩)))) ∧
    (∀ (env : RawEnv) (cls : JClass) (id : JFieldID),
      id.ty = .Object →
      JNIEnv.get_static_field env cls id =
        (if env.get_static_object_field cls.backing_ptr id.real_id = 0
         then .ok (.Object none)
         else .ok (.Object (some ⟨env.get_static_object_field cls.backing_ptr id.real_id⟩)))) := by
  refine ⟨?_, ?_, ?_, ?_, ?_⟩
  · intro env obj id args hid harity hflag
    unfold JNIEnv.call_method
    rw [if_neg (by simp [harity])]
    simp only [hid]
    by_cases h0 : env.call_object_method obj.backing_ptr id.real_id (JValue.make_ffi_vec args) = 0 <;>
      simp [h0, SmartObj.new, hflag]
  · intro env obj cls id args hid harity hflag
    unfold JNIEnv.call_nonvirtual_method
    rw [if_neg (by simp [harity])]
    simp only [hid]
    by_cases h0 : env.call_nonvirtual_object_method obj.backing_ptr cls.backing_ptr id.real_id (JValue.make_ffi_vec args) = 0 <;>
      simp [h0, SmartObj.new, hflag]
  · intro env cls id args hid harity hflag
    unfold JNIEnv.call_static_method
    rw [if_neg (by simp [harity])]
    simp only [hid]
    by_cases h0 : env.call_static_object_method cls.backing_ptr id.real_id (JValue.make_ffi_vec args) = 0 <;>
      simp [h0, SmartObj.new, hflag]
  · intro env obj id hid
    unfold JNIEnv.get_field
    simp only [hid]
    by_cases h0 : env.get_object_field obj.backing_ptr id.real_id = 0 <;>
      simp [h0, SmartObj.new]
  · intro env cls id hid
    unfold JNIEnv.get_static_field
    simp only [hid]
    by_cases h0 : env.get_static_object_field cls.backing_ptr id.real_id = 0 <;>
      simp [h0, SmartObj.new]

/-- Counterexample for C7 as stated: on an oracle with the pending flag
raised, the Object-arm call receives a null raw result, yet `call_method`
returns an error rather than `Ok(Object(None))` — the pending exception
overrides the null-to-absent conversion. -/
theorem object_arm_error_when_pending :
    envC7.call_object_method 1 7 [] = 0 ∧
    envC7.exception_check = true ∧
    (JNIEnv.call_method envC7 ⟨1⟩ ⟨7, .Object, 0⟩ []).res
      = .err (Error.new "Error occured during method call" JNI_ERR) := by
  refine ⟨rfl, rfl, ?_⟩
  rfl

/-- Witness for C7's theorem: a null object result on a clear-flag
oracle. -/
theorem object_arm_null_is_absent_witness :
    (JNIEnv.call_method { baseEnv with call_object_method := fun _ _ _ => 0 }
        ⟨1⟩ ⟨7, .Object, 0⟩ []).res = .ok (some (.Object none)) := by
  have h := object_arm_null_is_absent.1
    { baseEnv with call_object_method := fun _ _ _ => 0 } ⟨1⟩ ⟨7, .Object, 0⟩ []
    (by decide) (by decide) (by decide)
  rw [h]
  rfl

/-- C6: every handle and ID constructor rejects the null pointer and
wraps exactly the given pointer otherwise, so every constructed handle or
ID holds a non-null pointer; and the modelled Façade operations that
produce handles preserve this (their results go through these
constructors). -/
theorem handles_wrap_nonnull :
    (∀ (k : Kind) (p : Nat),
      (p = 0 → SmartObj.new k p
        = .error (Error.new_null (kindName k ++ " Constructor"))) ∧
      (p ≠ 0 → SmartObj.new k p = .ok ⟨p⟩) ∧
      (∀ h, SmartObj.new k p = .ok h → h.backing_ptr = p ∧ p ≠ 0)) ∧
    (∀ (id : Nat) (ret : JType) (n : Nat),
      (id = 0 → JMethodID.new id ret n
        = .error (Error.new_null "JMethodID Constructor")) ∧
      (id ≠ 0 → JMethodID.new id ret n = .ok ⟨id, ret, n⟩) ∧
      (∀ m, JMethodID.new id ret n = .ok m → m.real_id = id ∧ id ≠ 0)) ∧
    (∀ (id : Nat) (ty : JNonVoidType),
      (id = 0 → JFieldID.new id ty
        = .error (Error.new_null "JFieldID Constructor")) ∧
      (id ≠ 0 → JFieldID.new id ty = .ok ⟨id, ty⟩) ∧
      (∀ f, JFieldID.new id ty = .ok f → f.real_id = id ∧ id ≠ 0)) ∧
    (∀ (env : RawEnv) (name : Str) (c : JClass),
      JNIEnv.find_class env name = some (.ok c) → c.backing_ptr ≠ 0) ∧
    (∀ (env : RawEnv) (obj : JObject) (c : JClass),
      JNIEnv.get_object_class env obj = .ok c → c.backing_ptr ≠ 0) ∧
    (∀ (env : RawEnv) (obj : JObject) (id : JMethodID) (args : List JValue)
        (o : JObject),
      (JNIEnv.call_method env obj id args).res = .ok (some (.Object (some o))) →
      o.backing_ptr ≠ 0) ∧
    (∀ (env : RawEnv) (obj : JObject) (id : JFieldID) (o : JObject),
      JNIEnv.get_field env obj id = .ok (.Object (some o)) →
      o.backing_ptr ≠ 0) ∧
    (∀ (k : Kind) (env : RawEnv) (h : JObject) (t : SmartObj k),
      upcast k env h = some (.ok t) → t.backing_ptr ≠ 0) := by
  refine ⟨?_, ?_, ?_, ?_, ?_, ?_, ?_, ?_⟩
  · intro k p
    refine ⟨?_, ?_, ?_⟩
    · intro h0
      subst h0
      unfold SmartObj.new
      simp
    · intro hne
      unfold SmartObj.new
      simp [hne]
    · intro h he
      exact SmartObj_new_ok he
  · intro id ret n
    refine ⟨?_, ?_, ?_⟩
    · intro h0
      subst h0
      unfold JMethodID.new
      simp
    · intro hne
      unfold JMethodID.new
      simp [hne]
    · intro m hm
      unfold JMethodID.new at hm
      split at hm
      · exact absurd hm (by simp)
      · rename_i hne
        cases hm
        exact ⟨rfl, hne⟩
  · intro id ty
    refine ⟨?_, ?_, ?_⟩
    · intro h0
      subst h0
      unfold JFieldID.new
      simp
    · intro hne
      unfold JFieldID.new
      simp [hne]
    · intro f hf
      unfold JFieldID.new at hf
      split at hf
      · exact absurd hf (by simp)
      · rename_i hne
        cases hf
        exact ⟨rfl, hne⟩
  · intro env name c h
    unfold JNIEnv.find_class at h
    split at h
    · cases h
    · rename_i sig hsig
      by_cases hnul : Char.ofNat 0 ∈ mangled sig
      · simp [hnul] at h
      · by_cases h0 : env.find_class (mangled sig) = 0
        · simp [hnul, h0] at h
        · simp [hnul, h0] at h
          have hw := SmartObj_new_ok h
          rw [hw.1]
          exact hw.2
  · intro env obj c h
    unfold JNIEnv.get_object_class at h
    by_cases h0 : env.get_object_class obj.backing_ptr = 0
    · simp [h0] at h
    · simp [h0] at h
      have hw := SmartObj_new_ok h
      rw [hw.1]
      exact hw.2
  · intro env obj id args o h
    unfold JNIEnv.call_method at h
    split at h
    · simp at h
    · have hstep := call_tail_ok_val h
      cases hty : id.ret_ty <;> simp only [hty] at hstep
      case Object =>
        split at hstep
        · simp at hstep
        · split at hstep
          · rename_i o2 hnew
            have ho : o2 = o := by simpa using hstep
            subst ho
            have hw := SmartObj_new_ok hnew
            rw [hw.1]
            exact hw.2
          · simp at hstep
      case Char =>
        split at hstep <;> simp at hstep
      all_goals simp at hstep
  · intro env obj id o h
    unfold JNIEnv.get_field at h
    cases hty : id.ty <;> simp only [hty] at h
    case Object =>
      split at h
      · simp at h
      · split at h
        · rename_i o2 hnew
          have ho : o2 = o := by simpa using h
          subst ho
          have hw := SmartObj_new_ok hnew
          rw [hw.1]
          exact hw.2
        · simp at h
    case Char =>
      split at h <;> simp at h
    all_goals simp at h
  · intro k env hobj t h
    unfold upcast at h
    dsimp only at h
    cases hfc : JNIEnv.find_class env (get_java_name Kind.object) with
    | none => rw [hfc] at h; simp at h
    | some r =>
      cases r with
      | error e => rw [hfc] at h; simp at h
      | ok cast_cls =>
        rw [hfc] at h
        cases hoc : JNIEnv.get_object_class env hobj with
        | error e => rw [hoc] at h; simp at h
        | ok cls =>
          rw [hoc] at h
          by_cases hassign : JNIEnv.is_assignable_from env cls cast_cls = true
          · simp [hassign] at h
            have hw := SmartObj_new_ok h
            rw [hw.1]
            exact hw.2
          · simp [hassign] at h

/-- Witness for C6. -/
theorem handles_wrap_nonnull_witness :
    SmartObj.new Kind.object 0
      = .error (Error.new_null "JObject Constructor") ∧
    SmartObj.new Kind.string_ 4 = .ok ⟨4⟩ ∧
    JMethodID.new 0 .Int 2
      = .error (Error.new_null "JMethodID Constructor") ∧
    JFieldID.new 9 .Byte = .ok ⟨9, .Byte⟩ := by
  have h := handles_wrap_nonnull
  exact ⟨(h.1 Kind.object 0).1 rfl, (h.1 Kind.string_ 4).2.1 (by decide),
    (h.2.1 0 .Int 2).1 rfl, (h.2.2.1 9 .Byte).2.1 (by decide)⟩

/-- Counterexample for C5 as stated: the empty string matches no
production of the descriptor grammar, yet `mangle_class` succeeds on it,
returning `Class("")` — parsing does succeed on malformed descriptors. -/
theorem parse_accepts_malformed :
    ¬SpecGrammar [] ∧ mangle_class [] = some (.Class []) := by
  constructor
  · intro h
    exact SpecGrammar_ne_nil h rfl
  · have h := @mangle_class_class ([] : Str) (by decide) (by decide) (by decide)
    simpa using h

/-- C5 (corrected): `mangle_class` does not reject malformed descriptors:
any input whose trimmed form is not a primitive name, does not start with
`"("` and does not end with `"[]"` parses as `Class`, malformed or not.
Panics do occur, but neither coincide with malformedness nor are limited
to descriptors missing `"->"`: a trimmed descriptor starting with `"("`
and containing no `"->"` panics, and so does `"((a, -> x"` — which does
contain `"->"` — because the panic of its `"("`-prefixed argument piece
`"(a"` propagates out of the recursive argument parse. -/
theorem parse_class_fallthrough_and_panic_cases :
    (∀ s : Str, is_primitive (strTrim s) = false →
      strStartsWith (strTrim s) ['('] = false →
      strEndsWith (strTrim s) ['[', ']'] = false →
      mangle_class s = some (.Class (strTrim s))) ∧
    (∀ s : Str, strStartsWith (strTrim s) ['('] = true →
      strFind (strTrim s) ['-', '>'] = none →
      mangle_class s = none) ∧
    mangle_class ['(', '(', 'a', ',', ' ', '-', '>', ' ', 'x'] = none := by
  refine ⟨fun s h1 h2 h3 => mangle_class_class h1 h2 h3,
    fun s h2 hf => mangle_class_paren_none h2 hf, ?_⟩
  have hm := @mangle_class_method ['(', '(', 'a', ',', ' ', '-', '>', ' ', 'x'] 5
    (by decide) (by decide)
  rw [hm]
  have hargs : handle_args
      (strTrim ((strTrim ['(', '(', 'a', ',', ' ', '-', '>', ' ', 'x']).take 5)) = none := by
    rw [show strTrim ((strTrim ['(', '(', 'a', ',', ' ', '-', '>', ' ', 'x']).take 5)
        = ['(', '(', 'a', ','] from by decide]
    rw [handle_args_big (by decide)]
    rw [show splitOn ',' (((['(', '(', 'a', ','] : Str).drop 1).dropLast)
        = [['(', 'a']] from by decide]
    rw [mangle_list_cons]
    rw [@mangle_class_paren_none ['(', 'a'] (by decide) (by decide)]
  have hret : mangle_class
      ((strTrim ((strTrim ['(', '(', 'a', ',', ' ', '-', '>', ' ', 'x']).drop 5)).drop 2)
      = some (.Class ['x']) := by
    rw [show (strTrim ((strTrim ['(', '(', 'a', ',', ' ', '-', '>', ' ', 'x']).drop 5)).drop 2
        = [' ', 'x'] from by decide]
    rw [mangle_class_space_cons (by decide)]
    have h := @mangle_class_class ['x'] (by decide) (by decide) (by decide)
    rw [show strTrim ['x'] = ['x'] from by decide] at h
    exact h
  rw [hargs, hret]

/-- Witness for C5's theorem: a space-containing (hence malformed) name
parses as `Class`, and a lone `"("` panics. -/
theorem parse_class_fallthrough_and_panic_cases_witness :
    mangle_class ['n', 'o', 't', ' ', 'a', ' ', 'n', 'a', 'm', 'e']
      = some (.Class (strTrim ['n', 'o', 't', ' ', 'a', ' ', 'n', 'a', 'm', 'e'])) ∧
    mangle_class ['('] = none := by
  exact ⟨parse_class_fallthrough_and_panic_cases.1 _ (by decide) (by decide) (by decide),
    parse_class_fallthrough_and_panic_cases.2.1 ['('] (by decide) (by decide)⟩

/-- C4: for every primitive name `P`, `parse(P).mangled()` is the known
single-letter code and `parse(P ++ "[]").mangled()` is `"["` followed by
that code; and for non-method descriptor components `A`, `B`, `C` that
parse, `parse("(A, B) -> C").mangled()` is
`"(" ++ mangled(A) ++ mangled(B) ++ ")" ++ mangled(C)`. -/
theorem mangle_round_trip :
    (∀ p ∈ primPairs,
      (mangle_class p.1).map mangled = some p.2 ∧
      (mangle_class (p.1 ++ ['[', ']'])).map mangled = some ('[' :: p.2)) ∧
    (∀ (A B C : Str) (sa sb sc : TypeSignature),
      plainDesc A → plainDesc B → plainDesc C →
      mangle_class A = some sa → mangle_class B = some sb →
      mangle_class C = some sc →
      (mangle_class ('(' :: (A ++ [',', ' '] ++ (B ++ [')', ' ', '-', '>', ' '] ++ C)))).map mangled
        = some ('(' :: (mangled sa ++ mangled sb ++ (')' :: mangled sc)))) := by
  constructor
  · intro p hp
    fin_cases hp <;>
      refine ⟨?_, ?_⟩ <;>
        first
          | (rw [mangle_class_prim (by decide)]
             simp only [Option.map_some, mangled_Primitive]
             decide)
          | (rw [mangle_class_array (by decide) (by decide) (by decide),
               mangle_class_prim (by decide)]
             simp only [Option.map_map, Option.map_some, Function.comp,
               mangled_Array, mangled_Primitive]
             decide)
  · intro A B C sa sb sc hA hB hC ha hb hc
    rw [parse_method_shape hA hB hC ha hb hc]
    simp [mangled_Method, mangledList_cons, mangledList_nil]

/-- Witness for C4: the pair for `int`, and the method shape
`"(int, long) -> void"` mangling to `"(IJ)V"`. -/
theorem mangle_round_trip_witness :
    ((['i', 'n', 't'], ['I']) ∈ primPairs ∧
      (mangle_class ['i', 'n', 't']).map mangled = some ['I']) ∧
    (mangle_class ('(' :: (['i', 'n', 't'] ++ [',', ' '] ++
        (['l', 'o', 'n', 'g'] ++ [')', ' ', '-', '>', ' '] ++ ['v', 'o', 'i', 'd'])))).map mangled
      = some ('(' :: (mangled (.Primitive (strTrim ['i', 'n', 't'])) ++
          mangled (.Primitive (strTrim ['l', 'o', 'n', 'g'])) ++
          (')' :: mangled (.Primitive (strTrim ['v', 'o', 'i', 'd']))))) := by
  constructor
  · exact ⟨by decide, (mangle_round_trip.1 (['i', 'n', 't'], ['I']) (by decide)).1⟩
  · exact mangle_round_trip.2 _ _ _ _ _ _ (by decide) (by decide) (by decide)
      (mangle_class_prim (by decide)) (mangle_class_prim (by decide))
      (mangle_class_prim (by decide))

/-- C1 (code bug): the `upcast!` macro resolves the checked class from
`Self::get_java_name()` — the *source* type `JObject`'s name — not from
the target kind's declared binary name. On `upcastEnvCE`, the runtime's
own assignability query between the live class (30) and the class
resolved from `JThrowable`'s declared binary name (20) answers `true`,
yet `upcast` to `JThrowable` fails with the "Can't assign to type" error
(naming `JObject`'s stringified name), and the result is identical for
the unrelated target `JString` — the check never consults the target. -/
theorem upcast_resolves_source_name_not_target :
    JNIEnv.find_class upcastEnvCE (declared_binary_name Kind.throwable)
      = some (.ok ⟨20⟩) ∧
    JNIEnv.get_object_class upcastEnvCE ⟨1⟩ = .ok ⟨30⟩ ∧
    upcastEnvCE.is_assignable_from 30 20 = true ∧
    upcast Kind.throwable upcastEnvCE ⟨1⟩
      = some (.error (Error.new
          ("Can't assign to type " ++ String.mk (get_java_name Kind.object)) (-1))) ∧
    upcast Kind.string_ upcastEnvCE ⟨1⟩
      = some (.error (Error.new
          ("Can't assign to type " ++ String.mk (get_java_name Kind.object)) (-1))) := by
  have e1 : mangle_class (get_java_name Kind.object)
      = some (.Class (get_java_name Kind.object)) := by
    have h := @mangle_class_class (get_java_name Kind.object)
      (by decide) (by decide) (by decide)
    rw [show strTrim (get_java_name Kind.object) = get_java_name Kind.object from
      by decide] at h
    exact h
  have e2 : mangle_class (declared_binary_name Kind.throwable)
      = some (.Class (declared_binary_name Kind.throwable)) := by
    have h := @mangle_class_class (declared_binary_name Kind.throwable)
      (by decide) (by decide) (by decide)
    rw [show strTrim (declared_binary_name Kind.throwable)
        = declared_binary_name Kind.throwable from by decide] at h
    exact h
  have hfc1 : JNIEnv.find_class upcastEnvCE (get_java_name Kind.object)
      = some (.ok ⟨10⟩) := by
    unfold JNIEnv.find_class
    rw [e1]
    dsimp only
    rw [mangled_Class]
    rfl
  have hfc2 : JNIEnv.find_class upcastEnvCE (declared_binary_name Kind.throwable)
      = some (.ok ⟨20⟩) := by
    unfold JNIEnv.find_class
    rw [e2]
    dsimp only
    rw [mangled_Class]
    rfl
  refine ⟨hfc2, rfl, rfl, ?_, ?_⟩
  · unfold upcast
    dsimp only
    rw [hfc1]
    rfl
  · unfold upcast
    dsimp only
    rw [hfc1]
    rfl

end RustJni
